import Mathlib

/-!
Shallow embedding of the dispatch pipeline of the `mail-system` repository
(`app/tasks.py`, `app/models.py`, `app/routes.py`) and proofs about it.

Modelling conventions:
* Timestamps (`datetime` values) are `Nat` (Unix-style, only their order matters).
* Database rows are Lean structures with the columns declared in `app/models.py`;
  the store is a `Store` of row lists, and a SQL `UPDATE ... WHERE` is a `List.map`
  that rewrites the matching rows.
* The external SMTP world is an `Env`: a script of connection outcomes
  (`create_smtp_connection` succeeding or not) and of `send_message` outcomes
  (`none` = accepted, `some err` = exception with text `err`), consumed in order.
  Every `send_message` call is recorded in `Env.sendLog` (email id and body),
  which is the observable count of send attempts.
* Celery task semantics: `@shared_task(bind=True, max_retries=0)` means a
  `self.retry(...)` call checks the retry budget; with budget 0 the first call
  already raises `MaxRetriesExceededError`.  `send_batch_with_retries` wraps the
  task body with that budget logic.
-/

/-! ### Characters and substrings (Python `x in s`, `str.lower`) -/

/-- Python `needle in hay` on character lists. -/
def hasSubstr (hay needle : List Char) : Bool :=
  if needle.isPrefixOf hay then true else
  match hay with
  | [] => false
  | _ :: t => hasSubstr t needle

/-- Python `s.lower()` (ASCII level). -/
def lowerChars (l : List Char) : List Char := l.map Char.toLower

/-- `safe_send`'s rate-limit detector (`app/tasks.py` lines 56 and 78):
`"451" in error_str or "Ratelimit" in error_str or "quota" in error_str.lower()`. -/
def isRateLimitErr (err : String) : Bool :=
  hasSubstr err.data "451".data || hasSubstr err.data "Ratelimit".data ||
    hasSubstr (lowerChars err.data) "quota".data

/-! ### Data model (`app/models.py`) -/

/-- The `Email` row.  Fields are the columns declared on the `Email` model in
`app/models.py` (lines 40-53) plus `clicked_at`, which `app/routes.py` reads and
writes but which `app/models.py` does **not** declare; `emailDeclaredColumns`
records which attributes actually exist on a loaded row. -/
structure Email where
  id : Nat
  recipient : String
  subject : String
  body : String
  status : String
  scheduled_time : Nat
  created_at : Nat
  batch_id : Option String
  campaign_id : Option Nat
  rate_limit_retry_at : Option Nat
  tracking_id : Option String
  opened_at : Option Nat
  clicked_at : Option Nat
deriving Repr, DecidableEq

/-- The attribute names declared as columns on the `Email` model
(`app/models.py` lines 40-53).  Note `clicked_at` is absent. -/
def emailDeclaredColumns : List String :=
  ["id", "recipient", "subject", "body", "status", "scheduled_time", "created_at",
   "batch_id", "campaign_id", "rate_limit_retry_at", "tracking_id", "opened_at"]

/-- Python attribute read `email.<name>` on a freshly loaded row: declared
columns return their value, any other attribute raises `AttributeError`
(a loaded SQLAlchemy instance has no dynamically-set attributes). -/
def getattrEmail (_e : Email) (name : String) (value : Option Nat) :
    Except String (Option Nat) :=
  if emailDeclaredColumns.contains name then Except.ok value
  else Except.error ("AttributeError: " ++ name)

/-- The `User` row (`app/models.py` lines 6-20), the fields the pipeline reads. -/
structure User where
  id : Nat
  username : String
  email : String
deriving Repr, DecidableEq

/-- The `Campaign` row (`app/models.py` lines 33-38). -/
structure Campaign where
  id : Nat
  user_id : Nat
deriving Repr, DecidableEq

/-- The `SMTPSettings` row (`app/models.py` lines 22-31). -/
structure SMTPSettings where
  id : Nat
  user_id : Nat
  server : String
  port : Nat
  use_tls : Bool
  username : Option String
  password : Option String
  default_sender : String
  signature : Option String
deriving Repr, DecidableEq

/-- The database. -/
structure Store where
  emails : List Email
  campaigns : List Campaign
  users : List User
  smtp_settings : List SMTPSettings
deriving Repr, DecidableEq

/-- `email.campaign.owner` resolution: the campaign referenced by
`campaign_id`, then the user referenced by its `user_id`; `none` when either
link is missing (`if email.campaign and email.campaign.owner`). -/
def ownerId (s : Store) (e : Email) : Option Nat :=
  match e.campaign_id with
  | none => none
  | some cid =>
    match s.campaigns.find? (fun c => c.id == cid) with
    | none => none
    | some c =>
      match s.users.find? (fun u => u.id == c.user_id) with
      | none => none
      | some u => some u.id

/-- Owner of the email with a given id, for stating batch purity. -/
def ownerOfId (s : Store) (i : Nat) : Option Nat :=
  match s.emails.find? (fun e => e.id == i) with
  | none => none
  | some e => ownerId s e

/-! ### Scheduler / Batch Builder (`scheduler_dispatcher`, `app/tasks.py` lines 278-350) -/

/-- The eligibility filter of the dispatcher query (lines 305-310):
`status = pending`, `scheduled_time <= now`, `rate_limit_retry_at is null`,
`batch_id is null`. -/
def eligible (now : Nat) (e : Email) : Bool :=
  e.status == "pending" && decide (e.scheduled_time ≤ now) &&
    e.rate_limit_retry_at.isNone && e.batch_id.isNone

/-- Deferral reclaim (lines 286-298): every pending email whose
`rate_limit_retry_at` is non-null and has passed gets `rate_limit_retry_at = null`.
(The code guards the update with a count query; when nothing matches the update
is a no-op, so the unconditional map is observationally the same.) -/
def reclaimDeferrals (now : Nat) (s : Store) : Store :=
  { s with emails := s.emails.map (fun e =>
      if e.status == "pending" &&
          (match e.rate_limit_retry_at with
           | none => false
           | some t => decide (t ≤ now)) then
        { e with rate_limit_retry_at := none }
      else e) }

/-- The dispatcher selection (lines 305-310): eligible emails, `limit(2000)`,
in store order (the query has no `order_by`). -/
def selectEligible (now : Nat) (s : Store) : List Email :=
  (s.emails.filter (eligible now)).take 2000

/-- `defaultdict(list)` accumulation: append `eid` to the group of `uid`,
creating the group at the end on first occurrence (lines 326-330). -/
def addToGroups (gs : List (Nat × List Nat)) (uid : Nat) (eid : Nat) :
    List (Nat × List Nat) :=
  match gs with
  | [] => [(uid, [eid])]
  | (u, l) :: t =>
    if u == uid then (u, l ++ [eid]) :: t else (u, l) :: addToGroups t uid eid

/-- Group the selected emails by `email.campaign.owner.id`, dropping emails
whose campaign or owner is missing (lines 326-330). -/
def groupByOwner (s : Store) (pending : List Email) : List (Nat × List Nat) :=
  pending.foldl (fun gs e =>
    match ownerId s e with
    | none => gs
    | some uid => addToGroups gs uid e.id) []

/-- Fuel-driven chunking; with `fuel ≥ l.length` it yields the slices
`l[0:50], l[50:100], ...` of `for i in range(0, len(ids), 50)`. -/
def chunksFuel (fuel : Nat) (l : List Nat) : List (List Nat) :=
  match fuel, l with
  | _, [] => []
  | 0, l => [l]
  | f + 1, l => l.take 50 :: chunksFuel f (l.drop 50)

/-- Slices of at most 50 ids (line 335-336). -/
def chunks50 (l : List Nat) : List (List Nat) := chunksFuel l.length l

/-- `f"batch_{uid}_{now.timestamp()}_{batch_counter}"` (line 337), with the
tick timestamp modelled as a `Nat`. -/
def mkBatchId (uid now ctr : Nat) : String :=
  "batch_" ++ Nat.repr uid ++ "_" ++ Nat.repr now ++ "_" ++ Nat.repr ctr

/-- All chunks of the tick in dispatch order, each tagged with its owner. -/
def userChunks (gs : List (Nat × List Nat)) : List (Nat × List Nat) :=
  gs.flatMap (fun g => (chunks50 g.2).map (fun c => (g.1, c)))

/-- Assign the global `batch_counter` values and build each chunk's batch id
(lines 333-338). -/
def numberChunks (now : Nat) : Nat → List (Nat × List Nat) → List (String × List Nat)
  | _, [] => []
  | ctr, (uid, c) :: r => (mkBatchId uid now ctr, c) :: numberChunks now (ctr + 1) r

/-- The tick's dispatch plan: selection grouped by owner, sliced, numbered. -/
def planBatches (s : Store) (pending : List Email) (now : Nat) :
    List (String × List Nat) :=
  numberChunks now 0 (userChunks (groupByOwner s pending))

/-- The per-chunk stamping update (line 341):
`Email.query.filter(Email.id.in_(chunk)).update({Email.batch_id: batch_id})`.
Note the update is **unconditional**: it does not re-check `batch_id is null`. -/
def stampChunk (s : Store) (chunk : List Nat) (bid : String) : Store :=
  { s with emails := s.emails.map (fun e =>
      if chunk.contains e.id then { e with batch_id := some bid } else e) }

/-- Stamp every chunk of the plan in order (each followed by `delay`, i.e. the
hand-off of the chunk to a worker, which is the plan entry itself). -/
def runPlan (s : Store) (plan : List (String × List Nat)) : Store :=
  plan.foldl (fun st p => stampChunk st p.2 p.1) s

/-- One full `scheduler_dispatcher` tick: reclaim deferrals, select, plan,
stamp and dispatch.  Returns the new store and the list of dispatched batches
(batch id and chunk of email ids handed to `send_batch_task.delay`). -/
def scheduler_dispatcher (s : Store) (now : Nat) :
    Store × List (String × List Nat) :=
  let s1 := reclaimDeferrals now s
  let pending := selectEligible now s1
  let plan := planBatches s1 pending now
  (runPlan s1 plan, plan)

/-- All email ids dispatched by a plan. -/
def dispatchedIds (plan : List (String × List Nat)) : List Nat :=
  (plan.map (fun p => p.2)).flatten

/-! ### The SMTP world -/

/-- The external world seen by a worker run: the scripted outcomes of successive
`create_smtp_connection` calls (`true` = a live server, `false` = `None`), the
scripted outcomes of successive `server.send_message(msg)` calls (`none` =
accepted, `some err` = exception with text `err`), the `uuid.uuid4()` supply,
the `DOMAIN` environment variable, and the log of every `send_message` call
made so far (email id and message body).  Exhausted scripts default to
success. -/
structure Env where
  connects : List Bool
  sends : List (Option String)
  uuids : List String
  domain : String
  sendLog : List (Nat × String)
deriving Repr, DecidableEq

/-- Consume the next connection outcome. -/
def popConnect (env : Env) : Bool × Env :=
  match env.connects with
  | [] => (true, env)
  | b :: r => (b, { env with connects := r })

/-- Consume the next send outcome, logging the attempt. -/
def popSend (env : Env) (eid : Nat) (body : String) : Option String × Env :=
  match env.sends with
  | [] => (none, { env with sendLog := env.sendLog ++ [(eid, body)] })
  | o :: r => (o, { env with sends := r, sendLog := env.sendLog ++ [(eid, body)] })

/-- Consume the next `uuid.uuid4()` value. -/
def popUuid (env : Env) : String × Env :=
  match env.uuids with
  | [] => ("uuid-default", env)
  | u :: r => (u, { env with uuids := r })

/-- `create_smtp_connection(settings)` (`app/tasks.py` lines 17-35): returns a
live server or `None`.  The live session carries no data the pipeline reads, so
it is `Unit`. -/
def create_smtp_connection (env : Env) : Option Unit × Env :=
  let (ok, env1) := popConnect env
  (if ok then some () else none, env1)

/-- The value `safe_send` returns (`app/tasks.py` lines 38-83): `True`,
`False`, the string `rate_limit_sent`, or a fresh live connection object. -/
inductive SendResult where
  | ok
  | failed
  | rateLimitSent
  | newServer
deriving Repr, DecidableEq

/-- `safe_send(server, msg, recipient, settings)` (`app/tasks.py` lines 38-83):
try `send_message`; a rate-limit-looking error on the first attempt returns
`rate_limit_sent` (no retry); any other error closes the connection, reconnects
once and retries the same message, returning the new live connection on
success, `rate_limit_sent` on a rate-limit-looking second error, `False`
otherwise (or when the reconnect itself fails). -/
def safe_send (env : Env) (eid : Nat) (body : String) : SendResult × Env :=
  let (o, env1) := popSend env eid body
  match o with
  | none => (SendResult.ok, env1)
  | some err =>
    if isRateLimitErr err then (SendResult.rateLimitSent, env1)
    else
      let (c, env2) := create_smtp_connection env1
      match c with
      | none => (SendResult.failed, env2)
      | some _ =>
        let (o2, env3) := popSend env2 eid body
        match o2 with
        | none => (SendResult.newServer, env3)
        | some err2 =>
          if isRateLimitErr err2 then (SendResult.rateLimitSent, env3)
          else (SendResult.failed, env3)

/-! ### Message body construction (`app/tasks.py` lines 161-173) -/

/-- The tracking pixel appended to every body (line 171). -/
def trackingPixel (domain tid : String) : String :=
  "<img src=\x27" ++ domain ++ "/track/" ++ tid ++
    "\x27 width=\x271\x27 height=\x271\x27 style=\x27display:none;\x27 />"

/-- `f"<br><br>{signature}" if signature else ""` (line 172). -/
def sigSuffix (signature : String) : String :=
  if signature == "" then "" else "<br><br>" ++ signature

/-- `body_content = (email.body or "") + tracking_pixel + (...)` (line 172):
the whole body transformation performed before a send. -/
def body_content (domain : String) (body : String) (tid : String)
    (signature : String) : String :=
  body ++ trackingPixel domain tid ++ sigSuffix signature

/-! ### Delivery worker (`send_batch_task`, `app/tasks.py` lines 89-272) -/

/-- The mutable state of the worker's per-email loop (lines 125-222):
the current server handle, the refresh counter, the tallies, and the loaded
rows as mutated so far (in processing order). -/
structure LoopState where
  server : Option Unit
  counter : Nat
  sent : Nat
  failedCnt : Nat
  rateLimited : Nat
  consecutive : Nat
  processed : List Email
  env : Env
deriving Repr, DecidableEq

/-- `REFRESH_RATE = 500` (line 133). -/
def REFRESH_RATE : Nat := 500

/-- The part of the loop body that runs once a live server is at hand
(lines 161-217): assign a tracking id if absent, build the body with the
tracking pixel, `safe_send`, and classify the result.  (`safe_send` never
returns the legacy string `rate_limit`, so the `elif send_result ==
'rate_limit'` branch at lines 193-203 is dead code and has no counterpart
here.) -/
def processEmailConnected (sett : SMTPSettings) (st : LoopState) (e : Email) :
    LoopState :=
  let (tid, env1) :=
    match e.tracking_id with
    | some t => (t, st.env)
    | none => popUuid st.env
  let e1 := { e with tracking_id := some tid }
  let body := body_content env1.domain e.body tid (sett.signature.getD "")
  let (r, env2) := safe_send env1 e.id body
  match r with
  | SendResult.ok =>
    { st with
      env := env2
      sent := st.sent + 1
      counter := st.counter + 1
      consecutive := 0
      processed := st.processed ++ [{ e1 with status := "sent" }] }
  | SendResult.rateLimitSent =>
    { st with
      env := env2
      sent := st.sent + 1
      counter := st.counter + 1
      consecutive := 0
      rateLimited := st.rateLimited + 1
      processed := st.processed ++ [{ e1 with status := "sent" }] }
  | SendResult.newServer =>
    { st with
      env := env2
      server := some ()
      sent := st.sent + 1
      counter := st.counter + 1
      consecutive := 0
      processed := st.processed ++ [{ e1 with status := "sent" }] }
  | SendResult.failed =>
    { st with
      env := env2
      failedCnt := st.failedCnt + 1
      consecutive := 0
      processed := st.processed ++ [{ e1 with status := "failed" }] }

/-- One iteration of the worker's `for email in emails:` loop (lines 136-222):
periodic connection refresh at the `REFRESH_RATE` watermark, reconnection when
the handle is lost (marking the email failed if that reconnection also fails),
then `processEmailConnected`. -/
def processEmail (sett : SMTPSettings) (st : LoopState) (e : Email) : LoopState :=
  let (server0, counter0, env0) :=
    if REFRESH_RATE ≤ st.counter then
      let (c, env1) := create_smtp_connection st.env
      (c, 0, env1)
    else (st.server, st.counter, st.env)
  match server0 with
  | none =>
    let (c, env2) := create_smtp_connection env0
    match c with
    | none =>
      { st with
        server := none
        counter := counter0
        env := env2
        failedCnt := st.failedCnt + 1
        processed := st.processed ++ [{ e with status := "failed" }] }
    | some _ =>
      processEmailConnected sett
        { st with server := some (), counter := counter0, env := env2 } e
  | some _ =>
    processEmailConnected sett
      { st with server := some (), counter := counter0, env := env0 } e

/-- The whole per-email loop. -/
def processLoop (sett : SMTPSettings) (st : LoopState) (es : List Email) :
    LoopState :=
  es.foldl (processEmail sett) st

/-- The Outcome Recorder's successful commit (lines 224-253): the loop only
mutates `status`, `rate_limit_retry_at` and `tracking_id` on the loaded rows,
and the commit block writes exactly those fields back by id. -/
def applyProcessed (s : Store) (ps : List Email) : Store :=
  { s with emails := s.emails.map (fun e =>
      match ps.find? (fun p => p.id == e.id) with
      | some p =>
        { e with
          status := p.status
          rate_limit_retry_at := p.rate_limit_retry_at
          tracking_id := p.tracking_id }
      | none => e) }

/-- The `return` value of `send_batch_task` (or the retry request raised at
line 119). -/
inductive TaskResult where
  | noEmails
  | invalidBatch
  | missingSettings
  | retryRequested
  | done (sent failedCount rateLimited : Nat)
deriving Repr, DecidableEq

/-- How one execution of the `send_batch_task` body ends: a normal return
carrying the committed store, or a commit exception (lines 255-260), after
which the session was rolled back — the store is exactly the store the task
started from — and the exception re-raised. -/
inductive TaskOut where
  | finished (s : Store) (r : TaskResult) (env : Env)
  | commitError (s : Store) (env : Env)
deriving Repr, DecidableEq

/-- One execution of the `send_batch_task` body (`app/tasks.py` lines 89-272).
`commitOk` scripts whether a `db.session.commit()` of this run succeeds.
Branches, in source order: no rows loaded; no campaign/owner on the first row
(lines 98-102: returns `Invalid batch` **without touching any row**); no
`SMTPSettings` row (lines 107-113: every loaded row set to `failed`, commit);
initial connection failure (lines 115-119: `self.retry(countdown=60)`);
otherwise the per-email loop followed by the Outcome Recorder commit. -/
def send_batch_task (s : Store) (email_ids : List Nat) (env : Env)
    (commitOk : Bool) : TaskOut :=
  let emails := s.emails.filter (fun e => email_ids.contains e.id)
  match emails with
  | [] => TaskOut.finished s TaskResult.noEmails env
  | e0 :: _ =>
    match ownerId s e0 with
    | none => TaskOut.finished s TaskResult.invalidBatch env
    | some uid =>
      match s.smtp_settings.find? (fun t => t.user_id == uid) with
      | none =>
        let s2 : Store := { s with emails := s.emails.map (fun e =>
          if email_ids.contains e.id then { e with status := "failed" } else e) }
        if commitOk then TaskOut.finished s2 TaskResult.missingSettings env
        else TaskOut.commitError s env
      | some sett =>
        match create_smtp_connection env with
        | (none, env1) => TaskOut.finished s TaskResult.retryRequested env1
        | (some _, env1) =>
          let st0 : LoopState :=
            { server := some ()
              counter := 0
              sent := 0
              failedCnt := 0
              rateLimited := 0
              consecutive := 0
              processed := []
              env := env1 }
          let stF := processLoop sett st0 emails
          if commitOk then
            TaskOut.finished (applyProcessed s stF.processed)
              (TaskResult.done stF.sent stF.failedCnt stF.rateLimited) stF.env
          else TaskOut.commitError s stF.env

/-- The store left behind by one execution of the task body. -/
def taskStore : TaskOut → Store
  | TaskOut.finished s _ _ => s
  | TaskOut.commitError s _ => s

/-- `@shared_task(bind=True, max_retries=0)` (line 89). -/
def max_retries : Nat := 0

/-- The final fate of one dispatched batch, Celery retries included. -/
inductive WorkerOutcome where
  | finished (s : Store) (r : TaskResult) (env : Env)
  | commitError (s : Store) (env : Env)
  | maxRetriesExceeded (s : Store) (env : Env)
deriving Repr, DecidableEq

/-- Celery's handling of `self.retry(...)` under a retry budget: re-run the
task body while budget remains, raise `MaxRetriesExceededError` once it is
exhausted.  `send_batch_task` is invoked with budget `max_retries = 0`, so the
first `self.retry` call already exceeds it. -/
def send_batch_with_retries (budget : Nat) (s : Store) (ids : List Nat)
    (env : Env) (commitOk : Bool) : WorkerOutcome :=
  match send_batch_task s ids env commitOk with
  | TaskOut.finished s2 TaskResult.retryRequested env2 =>
    match budget with
    | 0 => WorkerOutcome.maxRetriesExceeded s2 env2
    | b + 1 => send_batch_with_retries b s2 ids env2 commitOk
  | TaskOut.finished s2 r env2 => WorkerOutcome.finished s2 r env2
  | TaskOut.commitError s2 env2 => WorkerOutcome.commitError s2 env2

/-- The store left behind by a finished worker invocation. -/
def outStore : WorkerOutcome → Store
  | WorkerOutcome.finished s _ _ => s
  | WorkerOutcome.commitError s _ => s
  | WorkerOutcome.maxRetriesExceeded s _ => s

/-! ### Pipeline operations, for stating store invariants -/

/-- One pipeline step: a scheduler tick, or a worker invocation (with its
scripted SMTP world and commit outcome). -/
inductive Op where
  | tick (now : Nat)
  | worker (ids : List Nat) (env : Env) (commitOk : Bool)
deriving Repr

/-- Apply one pipeline step; a tick also reports what it dispatched. -/
def applyOp (s : Store) : Op → Store × List (String × List Nat)
  | Op.tick now => scheduler_dispatcher s now
  | Op.worker ids env commitOk =>
    (outStore (send_batch_with_retries max_retries s ids env commitOk), [])

/-- Run a sequence of pipeline steps, accumulating everything dispatched. -/
def runOps (s : Store) : List Op → Store × List (String × List Nat)
  | [] => (s, [])
  | op :: r =>
    let (s1, d1) := applyOp s op
    let (s2, d2) := runOps s1 r
    (s2, d1 ++ d2)

/-! ### Tracking endpoints (`app/routes.py` lines 554-601) -/

/-- Hexadecimal digit value, for percent-decoding. -/
def hexVal (c : Char) : Option Nat :=
  if ("0" : String).front ≤ c && c ≤ ("9" : String).front then some (c.toNat - 48)
  else if ("a" : String).front ≤ c && c ≤ ("f" : String).front then some (c.toNat - 87)
  else if ("A" : String).front ≤ c && c ≤ ("F" : String).front then some (c.toNat - 55)
  else none

/-- `urllib.parse.unquote` at the ASCII level: decode `%XX` escapes, keep
malformed escapes as they are. -/
def unquoteCore : List Char → List Char
  | [] => []
  | c :: a :: b :: r2 =>
    if c == ("%" : String).front then
      match hexVal a, hexVal b with
      | some x, some y => Char.ofNat (16 * x + y) :: unquoteCore r2
      | _, _ => c :: unquoteCore (a :: b :: r2)
    else c :: unquoteCore (a :: b :: r2)
  | c :: r => c :: unquoteCore r


/-- `unquote(target_url)` (`app/routes.py` line 578). -/
def unquote (s : String) : String := (unquoteCore s.data).asString

/-- The HTTP-level outcome of the click endpoint. -/
inductive ClickResp where
  | invalidUrl
  | redirect (target : String)
deriving Repr, DecidableEq

/-- `GET /click/<tracking_id>?url=...` (`app/routes.py` lines 571-601,
`track_click`): 400 without a `url` parameter; otherwise decode the target,
look the email up by tracking id and, on a first click, set `clicked_at` (and
`opened_at` if still unset) and commit; finally redirect.  The read
`email.clicked_at` goes through `getattrEmail` because `clicked_at` is not a
declared column of the `Email` model (`app/models.py` lines 40-53), so on a
loaded row it raises `AttributeError` — the `Except.error` outcome — before
any field is written. -/
def track_click (s : Store) (tid : String) (urlParam : Option String)
    (now : Nat) : Except String (Store × ClickResp) :=
  match urlParam with
  | none => Except.ok (s, ClickResp.invalidUrl)
  | some url =>
    let target := unquote url
    match s.emails.find? (fun e => e.tracking_id == some tid) with
    | none => Except.ok (s, ClickResp.redirect target)
    | some e =>
      match getattrEmail e "clicked_at" e.clicked_at with
      | Except.error m => Except.error m
      | Except.ok c =>
        match c with
        | some _ => Except.ok (s, ClickResp.redirect target)
        | none =>
          let e1 := { e with clicked_at := some now }
          let e2 := if e1.opened_at.isNone then { e1 with opened_at := some now }
                    else e1
          let s2 : Store := { s with emails := s.emails.map (fun x =>
            if x.id == e2.id then e2 else x) }
          Except.ok (s2, ClickResp.redirect target)

/-- `GET /track/<tracking_id>` (`app/routes.py` lines 554-569,
`track_email_open`): look the email up by tracking id; if found and
`opened_at` is null, set it and commit; always return the fixed pixel. -/
def track_email_open (s : Store) (tid : String) (now : Nat) : Store :=
  match s.emails.find? (fun e => e.tracking_id == some tid) with
  | none => s
  | some e =>
    if e.opened_at.isNone then
      { s with emails := s.emails.map (fun x =>
          if x.id == e.id then { e with opened_at := some now } else x) }
    else s

/-! ### Decimal representation helpers

`mkBatchId` builds batch ids with `Nat.repr`.  To prove distinct counters give
distinct batch ids we recover the counter from the id: `Nat.repr n` is a
nonempty list of decimal digits (so it contains no underscore), hence the
segment of a batch id after its last underscore is exactly `Nat.repr ctr`,
and `Nat.repr` is injective because the digit string evaluates back to `n`. -/

/-- Decimal digits of `n`, most significant first (reference definition used
to reason about `Nat.repr`). -/
def natChars (n : Nat) : List Char :=
  if _h : n < 10 then [Nat.digitChar n]
  else natChars (n / 10) ++ [Nat.digitChar (n % 10)]
  decreasing_by exact Nat.div_lt_self (by omega) (by omega)

/-- Evaluate a digit string back to the number it denotes. -/
def charsVal (l : List Char) : Nat :=
  l.foldl (fun a c => 10 * a + (c.toNat - 48)) 0

/-- The segment of a string after its last underscore (read off the reversed
character list). -/
def afterLastUnderscore (s : String) : List Char :=
  s.data.reverse.takeWhile (fun c => c != ("_" : String).front)

/-! ### Concrete fixtures for counterexamples and witnesses -/

/-- A pending, due, unclaimed, undeferred email owned by campaign 3. -/
def baseEmail : Email :=
  { id := 1
    recipient := "r@x"
    subject := "s"
    body := ""
    status := "pending"
    scheduled_time := 0
    created_at := 0
    batch_id := none
    campaign_id := some 3
    rate_limit_retry_at := none
    tracking_id := none
    opened_at := none
    clicked_at := none }

/-- User 7, the owner of campaign 3. -/
def user7 : User := { id := 7, username := "u", email := "u@x" }

/-- Campaign 3, owned by user 7. -/
def campaign3 : Campaign := { id := 3, user_id := 7 }

/-- SMTP settings for user 7. -/
def sett7 : SMTPSettings :=
  { id := 1
    user_id := 7
    server := "smtp.x"
    port := 587
    use_tls := true
    username := some "u"
    password := some "p"
    default_sender := "u@x"
    signature := none }

/-- An environment whose scripted outcomes are all successes. -/
def envOk : Env :=
  { connects := []
    sends := []
    uuids := ["t1"]
    domain := "http://localhost:5000"
    sendLog := [] }

/-- Store with one dispatchable email owned by user 7. -/
def storeOwned : Store :=
  { emails := [baseEmail]
    campaigns := [campaign3]
    users := [user7]
    smtp_settings := [sett7] }

/-- Store with one eligible email that has no campaign (hence no owner). -/
def storeOwnerless : Store :=
  { emails := [{ baseEmail with campaign_id := none }]
    campaigns := []
    users := []
    smtp_settings := [] }

/-- A claimed (stamped) but still pending email without a campaign. -/
def emailNoOwner : Email := { baseEmail with campaign_id := none, batch_id := some "b1" }

/-- A claimed (stamped) but still pending email owned by campaign 3. -/
def emailClaimed : Email := { baseEmail with batch_id := some "b1" }

/-- Store with one already-claimed pending email that has no campaign:
the shape `send_batch_task` sees when the owner cannot be determined. -/
def storeNoOwnerBatch : Store :=
  { emails := [emailNoOwner]
    campaigns := []
    users := []
    smtp_settings := [] }

/-- Store with one claimed email whose owner exists and has settings, used for
the connection-failure counterexample. -/
def storeConnFail : Store :=
  { emails := [emailClaimed]
    campaigns := [campaign3]
    users := [user7]
    smtp_settings := [sett7] }

/-- Store with one email carrying tracking id `t`, as loaded by the click
endpoint. -/
def storeTracked : Store :=
  { emails := [{ baseEmail with status := "sent", tracking_id := some "t" }]
    campaigns := [campaign3]
    users := [user7]
    smtp_settings := [sett7] }

/-- Selected emails that have a determinable owner, in selection order; their
ids are what a tick actually dispatches. -/
def ownedIds (s : Store) (l : List Email) : List Nat :=
  (l.filter (fun e => (ownerId s e).isSome)).map (fun e => e.id)

/-- The per-email effect of stamping a whole plan (`runPlan` acts as this map
on every row of the store). -/
def stampAll (plan : List (String × List Nat)) (e : Email) : Email :=
  plan.foldl
    (fun x p => if p.2.contains x.id then { x with batch_id := some p.1 } else x) e

/-- The `Email` fields the Outcome Recorder never writes. -/
def untouchedFields (e : Email) :
    Nat × String × String × String × Nat × Nat × Option String × Option Nat ×
      Option Nat × Option Nat :=
  (e.id, e.recipient, e.subject, e.body, e.scheduled_time, e.created_at,
    e.batch_id, e.campaign_id, e.opened_at, e.clicked_at)

/-! #### The overlapping-ticks trace (claim C1)

Two scheduler ticks A (at time 0) and B (at time 1) overlap: each runs its
reclaim and its `SELECT` against the initial store — both queries happen
before either tick has stamped anything — and then their per-chunk stamping
updates and `delay` calls commit in the order A, B.  Every individual step is
one of the tick's atomic statements, so this interleaving is realizable by two
concurrently running `scheduler_dispatcher` invocations. -/

/-- Tick A's dispatch plan, computed from the initial store at time 0. -/
def overlapPlanA : List (String × List Nat) :=
  planBatches (reclaimDeferrals 0 storeOwned)
    (selectEligible 0 (reclaimDeferrals 0 storeOwned)) 0

/-- Tick B's dispatch plan, also computed from the initial store (its query
ran before tick A stamped), at time 1. -/
def overlapPlanB : List (String × List Nat) :=
  planBatches (reclaimDeferrals 1 storeOwned)
    (selectEligible 1 (reclaimDeferrals 1 storeOwned)) 1

/-- The store after tick A stamps and dispatches its plan. -/
def overlapStore1 : Store := runPlan (reclaimDeferrals 0 storeOwned) overlapPlanA

/-- The store after tick B then stamps and dispatches its plan. -/
def overlapStore2 : Store := runPlan overlapStore1 overlapPlanB

/-! #### Further fixtures -/

/-- Store whose one claimed email has an owner but no `SMTPSettings` row. -/
def storeNoSett : Store :=
  { emails := [emailClaimed]
    campaigns := [campaign3]
    users := [user7]
    smtp_settings := [] }

/-- Environment whose first (and only scripted) connection attempt fails. -/
def envConnFail : Env := { envOk with connects := [false] }

/-- Environment whose first connection attempt succeeds. -/
def envConnOk : Env := { envOk with connects := [true] }

/-- A body containing an anchor explicitly flagged as trackable. -/
def trackableBody : String :=
  "<a data-trackable=\x22yes\x22 href=\x22https://ex.com/p\x22>go</a>"

/-- Loop state for the rate-limit witness: live connection, next send outcome
a 451 rejection. -/
def stC5 : LoopState :=
  { server := some ()
    counter := 0
    sent := 0
    failedCnt := 0
    rateLimited := 0
    consecutive := 0
    processed := []
    env := { envOk with sends := [some "451 4.7.1 Ratelimit"] } }

/-- Loop state for the reconnect-and-succeed witness: next send raises a
connection error, the reconnect succeeds, the retried send is accepted. -/
def stC6A : LoopState :=
  { stC5 with env := { envOk with sends := [some "boom", none], connects := [true] } }

/-- Loop state for the double-failure witness: next send raises, the reconnect
succeeds, the retried send raises again. -/
def stC6B : LoopState :=
  { stC5 with
    env := { envOk with sends := [some "boom", some "crash"], connects := [true] } }

/-- A remaining batch email (for the still-attempted part of scenario C). -/
def emailNext : Email := { baseEmail with id := 2, recipient := "r2@x" }

/-- Pipeline steps for the stamped-stays-stamped witness: two further ticks. -/
def opsWit : List Op := [Op.tick 0, Op.tick 1]

/-! ## Lemmas: substrings -/

theorem isPrefixOf_append_self (n b : List Char) : n.isPrefixOf (n ++ b) = true := by
  induction n with
  | nil => simp [List.isPrefixOf]
  | cons c t ih => simp [List.isPrefixOf, ih]

theorem hasSubstr_self_append (n b : List Char) : hasSubstr (n ++ b) n = true := by
  rw [hasSubstr.eq_def, isPrefixOf_append_self]
  simp

theorem hasSubstr_append_middle (a n b : List Char) :
    hasSubstr (a ++ n ++ b) n = true := by
  induction a with
  | nil => simpa using hasSubstr_self_append n b
  | cons c t ih =>
    show hasSubstr (c :: (t ++ n ++ b)) n = true
    rw [hasSubstr]
    split
    · rfl
    · exact ih

/-! ## Claim C1 — at-most-one dispatch under overlapping ticks -/

/-- Claim C1, counterexample.  Two overlapping scheduler ticks both query the
eligible set of `storeOwned` before either stamps (both reclaims are no-ops on
this store, so both ticks read the same initial state); the per-chunk stamping
update is unconditional, so tick B then overwrites tick A's stamp: message 1
is stamped with two different batch ids while its status is still `pending`
(the first claim unresolved — no worker has run), and the chunk `[1]` is
handed to `send_batch_task.delay` by **both** ticks.  This refutes the claim
that no message id is ever stamped with two different batch ids when two
overlapping ticks both query before either stamps. -/
theorem c1_overlapping_ticks_double_claim :
    reclaimDeferrals 0 storeOwned = storeOwned ∧
    reclaimDeferrals 1 storeOwned = storeOwned ∧
    overlapPlanA = [("batch_7_0_0", [1])] ∧
    overlapPlanB = [("batch_7_1_0", [1])] ∧
    overlapStore1.emails.map (fun e => (e.id, e.batch_id, e.status)) =
      [(1, some "batch_7_0_0", "pending")] ∧
    overlapStore2.emails.map (fun e => (e.id, e.batch_id, e.status)) =
      [(1, some "batch_7_1_0", "pending")] ∧
    ("batch_7_0_0" : String) ≠ "batch_7_1_0" := by
  refine ⟨by decide, by decide, by decide, by decide, by decide, by decide, by decide⟩

/-! ## Claim C2 — what a tick dispatches -/

/-- Claim C2, counterexample.  The email of `storeOwnerless` satisfies all
four eligibility conditions (`status = pending`, `scheduled_time ≤ now`,
`rate_limit_retry_at` null, `batch_id` null), yet the tick dispatches nothing
(and does not even stamp the message), because the grouping step silently
drops every selected email without a campaign owner.  This refutes "dispatches
exactly the messages satisfying" the four conditions. -/
theorem c2_eligible_ownerless_not_dispatched :
    eligible 0 { baseEmail with campaign_id := none } = true ∧
    (scheduler_dispatcher storeOwnerless 0).2 = [] ∧
    (scheduler_dispatcher storeOwnerless 0).1 = storeOwnerless := by
  refine ⟨by decide, by decide, by decide⟩

/-! ## Claim C3 — worker behaviour on misconfigured batches -/

/-- Claim C3, counterexample.  A batch whose owning identity cannot be
determined (first email has no campaign): the worker returns `Invalid batch`
leaving the store — in particular every `status`, still `pending` — untouched,
and makes zero send attempts; the claim says every message in the batch is
marked `failed`. -/
theorem c3_missing_owner_not_marked_failed :
    send_batch_task storeNoOwnerBatch [1] envOk true =
      TaskOut.finished storeNoOwnerBatch TaskResult.invalidBatch envOk ∧
    storeNoOwnerBatch.emails.map (fun e => e.status) = ["pending"] ∧
    envOk.sendLog = [] := by
  refine ⟨by decide, by decide, by decide⟩

/-! ## Claim C4 — connection-open failure handling -/

/-- Claim C4, counterexample.  The initial relay connection cannot be opened;
`send_batch_task` calls `self.retry`, but the task is declared with
`max_retries=0`, so the very first retry request already exceeds the budget:
the task dies with `MaxRetriesExceededError` leaving every message of the
batch `pending` (and still stamped), with zero send attempts — not `failed` as
the claim requires once retries are exhausted. -/
theorem c4_retries_exhausted_not_marked_failed :
    send_batch_with_retries max_retries storeConnFail [1] envConnFail true =
      WorkerOutcome.maxRetriesExceeded storeConnFail { envConnFail with connects := [] } ∧
    storeConnFail.emails.map (fun e => (e.status, e.batch_id)) =
      [("pending", some "b1")] ∧
    envConnFail.sendLog = [] := by
  refine ⟨by decide, by decide, by decide⟩

/-! ## Claim C7 — the body rewriting step -/

/-- Claim C7, counterexample.  `trackableBody` contains an anchor explicitly
flagged as trackable (`data-trackable="yes"`); the rewriting step the worker
actually performs (line 171-172 of `app/tasks.py`) leaves its destination
completely untouched — the raw `href` survives verbatim, no redirect URL
(the `/click/` endpoint of `app/routes.py`) appears anywhere in the output,
and the whole transformation is a pure append of the beacon.  This refutes
"replaces their destination with a redirect URL carrying the token and the
URL-encoded original destination". -/
theorem c7_trackable_anchor_not_rewritten :
    body_content "http://localhost:5000" trackableBody "tok" "" =
      trackableBody ++ trackingPixel "http://localhost:5000" "tok" ∧
    hasSubstr (body_content "http://localhost:5000" trackableBody "tok" "").data
      "/click/".data = false ∧
    hasSubstr (body_content "http://localhost:5000" trackableBody "tok" "").data
      "href=\x22https://ex.com/p\x22".data = true := by
  refine ⟨by decide, by decide, by decide⟩

/-- Claim C7, amended: for every body, token, domain and signature, the
rewriting step before a send leaves the original body unchanged as a literal
prefix (no anchor is rewritten) and appends an invisible beacon request whose
URL carries the token (`<domain>/track/<token>`), followed only by the
optional signature suffix. -/
theorem c7_rewriter_appends_beacon_only (domain body tid sig : String) :
    body_content domain body tid sig =
      body ++ (trackingPixel domain tid ++ sigSuffix sig) ∧
    hasSubstr (body_content domain body tid sig).data
      ("/track/" ++ tid).data = true := by
  constructor
  · rw [body_content, String.append_assoc]
  · show hasSubstr (body ++ trackingPixel domain tid ++ sigSuffix sig).data
      ("/track/" ++ tid).data = true
    have h1 : (body ++ trackingPixel domain tid ++ sigSuffix sig).data =
        (body.data ++ ("<img src=\x27" ++ domain).data) ++ ("/track/" ++ tid).data ++
          (("\x27 width=\x271\x27 height=\x271\x27 style=\x27display:none;\x27 />" ++
            sigSuffix sig).data) := by
      simp [trackingPixel, String.data_append, List.append_assoc]
    rw [h1]
    exact hasSubstr_append_middle _ _ _

/-! ## Claim C9 — click implies open -/

/-- Claim C9: the click-redirect endpoint is supposed to establish the
invariant by setting `opened_at` whenever it sets `clicked_at`; but
`clicked_at` is not a declared column of the `Email` model
(`app/models.py` lines 40-53), so the endpoint's very first read of
`email.clicked_at` on a found row raises `AttributeError`: the request dies
with a 500 before any timestamp is written, and no click is ever recorded.
The code (routes) contradicts the code (model); the claim matches the evident
intent, so this is a code bug.  Concrete failing run: a click for tracking id
`t`, which exists in `storeTracked`. -/
theorem c9_track_click_attribute_error :
    track_click storeTracked "t" (some "http%3A%2F%2Fx.com") 5 =
      Except.error "AttributeError: clicked_at" ∧
    emailDeclaredColumns.contains "clicked_at" = false := by
  exact ⟨rfl, by decide⟩

/-- Claim C3, amended: if the sending configuration does not exist, the worker
marks every message of the batch `failed` and exits with zero send attempts;
but if the owning identity itself cannot be determined, the worker exits with
zero send attempts **leaving every message's status unchanged** (still
`pending`), not `failed`.  In both conclusions the environment is returned
exactly as passed, so `sendLog` — the record of send attempts — is unchanged. -/
theorem c3_worker_misconfiguration (s : Store) (ids : List Nat) (env : Env)
    (e0 : Email) (rest : List Email)
    (hload : s.emails.filter (fun e => ids.contains e.id) = e0 :: rest) :
    (ownerId s e0 = none →
      send_batch_task s ids env true =
        TaskOut.finished s TaskResult.invalidBatch env) ∧
    (∀ uid, ownerId s e0 = some uid →
      s.smtp_settings.find? (fun t => t.user_id == uid) = none →
      send_batch_task s ids env true =
        TaskOut.finished
          { s with emails := s.emails.map (fun e =>
              if ids.contains e.id then { e with status := "failed" } else e) }
          TaskResult.missingSettings env) := by
  constructor
  · intro howner
    simp only [send_batch_task, hload, howner]
  · intro uid howner hsett
    simp only [send_batch_task, hload, howner, hsett, if_pos]

/-- Claim C3, witness: both conclusions at concrete inputs.
`storeNoOwnerBatch` has a claimed batch whose first email has no campaign;
`storeNoSett` has an owner (user 7) but no `SMTPSettings` row, and its single
message ends `failed`. -/
theorem c3_worker_misconfiguration_witness :
    (send_batch_task storeNoOwnerBatch [1] envOk true =
      TaskOut.finished storeNoOwnerBatch TaskResult.invalidBatch envOk) ∧
    (send_batch_task storeNoSett [1] envOk true =
      TaskOut.finished
        { storeNoSett with emails := storeNoSett.emails.map (fun e =>
            if [1].contains e.id then { e with status := "failed" } else e) }
        TaskResult.missingSettings envOk) ∧
    ({ storeNoSett with emails := storeNoSett.emails.map (fun e =>
        if [1].contains e.id then { e with status := "failed" } else e) } : Store).emails.map
      (fun e => e.status) = ["failed"] := by
  refine ⟨(c3_worker_misconfiguration storeNoOwnerBatch [1] envOk emailNoOwner []
      (by decide)).1 (by decide),
    (c3_worker_misconfiguration storeNoSett [1] envOk emailClaimed []
      (by decide)).2 7 (by decide) (by decide),
    by decide⟩

/-- Claim C4, amended: when the initial relay connection cannot be opened the
task requests a whole-batch retry, but the task's retry budget is
`max_retries = 0`, so the very first request already exhausts it: the run ends
in `MaxRetriesExceededError` having consumed exactly one connection attempt,
made zero send attempts, and left the store — every message still `pending`
and stamped — completely unchanged; no message is ever marked `failed` on this
path. -/
theorem c4_conn_failure_max_retries (s : Store) (ids : List Nat) (env : Env)
    (e0 : Email) (rest : List Email) (uid : Nat) (sett : SMTPSettings)
    (cs : List Bool)
    (hload : s.emails.filter (fun e => ids.contains e.id) = e0 :: rest)
    (howner : ownerId s e0 = some uid)
    (hsett : s.smtp_settings.find? (fun t => t.user_id == uid) = some sett)
    (hconn : env.connects = false :: cs) :
    send_batch_with_retries max_retries s ids env true =
      WorkerOutcome.maxRetriesExceeded s { env with connects := cs } ∧
    ({ env with connects := cs } : Env).sendLog = env.sendLog := by
  have htask : send_batch_task s ids env true =
      TaskOut.finished s TaskResult.retryRequested { env with connects := cs } := by
    simp only [send_batch_task, hload, howner, hsett, create_smtp_connection,
      popConnect, hconn]
    simp
  refine ⟨?_, rfl⟩
  rw [send_batch_with_retries, htask]
  simp [max_retries]

/-- Claim C4, witness: the amended behaviour at a concrete input. -/
theorem c4_conn_failure_max_retries_witness :
    send_batch_with_retries max_retries storeConnFail [1] envConnFail true =
      WorkerOutcome.maxRetriesExceeded storeConnFail
        { envConnFail with connects := [] } := by
  exact (c4_conn_failure_max_retries storeConnFail [1] envConnFail emailClaimed []
    7 sett7 [] (by decide) (by decide) (by decide) (by decide)).1

/-! ## Claim C8 — the Outcome Recorder commit -/

theorem applyProcessed_untouchedFields (s : Store) (ps : List Email) :
    (applyProcessed s ps).emails.map untouchedFields = s.emails.map untouchedFields := by
  simp only [applyProcessed, List.map_map]
  apply List.map_congr_left
  intro e _
  cases h : ps.find? (fun p => p.id == e.id) <;> simp [untouchedFields, h]

/-- Claim C8: once a batch reaches the Outcome Recorder, the final per-message
outcomes are applied as one all-or-nothing transaction.  If the commit fails,
the session is rolled back — the resulting store is **exactly** the store the
task started from, nothing partially applied — and the exception is re-raised
as a fatal task error (`commitError`), which the retry wrapper never converts
into a re-run of the batch.  If the commit succeeds, the store changes in a
single step that touches only the fields the worker wrote (`status`,
`rate_limit_retry_at`, `tracking_id`): every other field of every email is
unchanged. -/
theorem c8_outcome_commit (s : Store) (ids : List Nat) (env : Env)
    (e0 : Email) (rest : List Email) (uid : Nat) (sett : SMTPSettings)
    (cs : List Bool)
    (hload : s.emails.filter (fun e => ids.contains e.id) = e0 :: rest)
    (howner : ownerId s e0 = some uid)
    (hsett : s.smtp_settings.find? (fun t => t.user_id == uid) = some sett)
    (hconn : env.connects = true :: cs) :
    (∃ envF, send_batch_task s ids env false = TaskOut.commitError s envF ∧
      send_batch_with_retries max_retries s ids env false =
        WorkerOutcome.commitError s envF) ∧
    (∃ s2 r envF, send_batch_task s ids env true = TaskOut.finished s2 r envF ∧
      s2.emails.map untouchedFields = s.emails.map untouchedFields) := by
  have hcreate : create_smtp_connection env = (some (), { env with connects := cs }) := by
    simp [create_smtp_connection, popConnect, hconn]
  constructor
  · have htaskF : send_batch_task s ids env false =
        TaskOut.commitError s
          (processLoop sett
            { server := some ()
              counter := 0
              sent := 0
              failedCnt := 0
              rateLimited := 0
              consecutive := 0
              processed := []
              env := { env with connects := cs } } (e0 :: rest)).env := by
      simp only [send_batch_task, hload, howner, hsett, hcreate]
      simp
    refine ⟨_, htaskF, ?_⟩
    rw [send_batch_with_retries, htaskF]
  · have htaskT : send_batch_task s ids env true =
        TaskOut.finished
          (applyProcessed s
            (processLoop sett
              { server := some ()
                counter := 0
                sent := 0
                failedCnt := 0
                rateLimited := 0
                consecutive := 0
                processed := []
                env := { env with connects := cs } } (e0 :: rest)).processed)
          (TaskResult.done
            (processLoop sett
              { server := some ()
                counter := 0
                sent := 0
                failedCnt := 0
                rateLimited := 0
                consecutive := 0
                processed := []
                env := { env with connects := cs } } (e0 :: rest)).sent
            (processLoop sett
              { server := some ()
                counter := 0
                sent := 0
                failedCnt := 0
                rateLimited := 0
                consecutive := 0
                processed := []
                env := { env with connects := cs } } (e0 :: rest)).failedCnt
            (processLoop sett
              { server := some ()
                counter := 0
                sent := 0
                failedCnt := 0
                rateLimited := 0
                consecutive := 0
                processed := []
                env := { env with connects := cs } } (e0 :: rest)).rateLimited)
          (processLoop sett
            { server := some ()
              counter := 0
              sent := 0
              failedCnt := 0
              rateLimited := 0
              consecutive := 0
              processed := []
              env := { env with connects := cs } } (e0 :: rest)).env := by
      simp only [send_batch_task, hload, howner, hsett, hcreate]
      simp
    exact ⟨_, _, _, htaskT, applyProcessed_untouchedFields s _⟩

/-- Claim C8, witness: the commit-failure conclusion at a concrete input. -/
theorem c8_outcome_commit_witness :
    ∃ envF, send_batch_task storeConnFail [1] envConnOk false =
        TaskOut.commitError storeConnFail envF ∧
      send_batch_with_retries max_retries storeConnFail [1] envConnOk false =
        WorkerOutcome.commitError storeConnFail envF := by
  exact (c8_outcome_commit storeConnFail [1] envConnOk emailClaimed [] 7 sett7 []
    (by decide) (by decide) (by decide) (by decide)).1

/-! ## Claim C5 — rate-limited sends -/

theorem processEmailConnected_processed_length (sett : SMTPSettings)
    (st : LoopState) (e : Email) :
    (processEmailConnected sett st e).processed.length = st.processed.length + 1 := by
  simp only [processEmailConnected]
  cases e.tracking_id <;> (dsimp only []; split <;> simp)

theorem processEmail_processed_length (sett : SMTPSettings) (st : LoopState)
    (e : Email) :
    (processEmail sett st e).processed.length = st.processed.length + 1 := by
  simp only [processEmail]
  split <;> split <;>
    simp [processEmailConnected_processed_length]

/-- Every email handed to the loop is processed: the loop never aborts early,
whatever the scripted outcomes are. -/
theorem processLoop_processed_length (sett : SMTPSettings) (st : LoopState)
    (es : List Email) :
    (processLoop sett st es).processed.length = st.processed.length + es.length := by
  induction es generalizing st with
  | nil => simp [processLoop]
  | cons e r ih =>
    show (processLoop sett (processEmail sett st e) r).processed.length = _
    rw [ih, processEmail_processed_length]
    simp
    omega

/-- Claim C5: a send attempt whose relay rejection carries a rate-limit signal
(`451`, `Ratelimit`, or `quota` in the error text) marks that message `sent`,
increments the rate-limited counter, consumes exactly one send outcome (no
within-run retry of the message), keeps the connection, and the loop then
still processes every remaining message of the batch. -/
theorem c5_rate_limit_marked_sent (sett : SMTPSettings) (st : LoopState)
    (e : Email) (err : String) (sends2 : List (Option String))
    (hserver : st.server = some ())
    (hcounter : st.counter < REFRESH_RATE)
    (hsends : st.env.sends = some err :: sends2)
    (hrl : isRateLimitErr err = true) :
    (processEmail sett st e).processed.map (fun p => (p.id, p.status)) =
      st.processed.map (fun p => (p.id, p.status)) ++ [(e.id, "sent")] ∧
    (processEmail sett st e).rateLimited = st.rateLimited + 1 ∧
    (processEmail sett st e).sent = st.sent + 1 ∧
    (processEmail sett st e).env.sendLog.map (fun p => p.1) =
      st.env.sendLog.map (fun p => p.1) ++ [e.id] ∧
    (processEmail sett st e).env.sends = sends2 ∧
    (processEmail sett st e).server = some () ∧
    ∀ es, (processLoop sett (processEmail sett st e) es).processed.length =
      (processEmail sett st e).processed.length + es.length := by
  have hnr : ¬ REFRESH_RATE ≤ st.counter := by omega
  refine ⟨?_, ?_, ?_, ?_, ?_, ?_, fun es => processLoop_processed_length sett _ es⟩ <;>
  · cases htid : e.tracking_id <;>
      cases huu : st.env.uuids <;>
        simp [processEmail, processEmailConnected, safe_send, popSend, popUuid,
          hnr, hserver, hsends, hrl, htid, huu]

/-- Claim C5, witness: scenario with one rate-limited message at concrete
inputs. -/
theorem c5_rate_limit_marked_sent_witness :
    stC5.server = some () ∧ stC5.counter < REFRESH_RATE ∧
    stC5.env.sends = [some "451 4.7.1 Ratelimit"] ∧
    isRateLimitErr "451 4.7.1 Ratelimit" = true ∧
    (processEmail sett7 stC5 baseEmail).processed.map (fun p => (p.id, p.status)) =
      [(1, "sent")] ∧
    (processEmail sett7 stC5 baseEmail).rateLimited = 1 := by
  have h := c5_rate_limit_marked_sent sett7 stC5 baseEmail "451 4.7.1 Ratelimit" []
    rfl (by decide) rfl (by decide)
  refine ⟨rfl, by decide, rfl, by decide, ?_, ?_⟩
  · simpa using h.1
  · simpa using h.2.1

/-! ## Claim C6 — connection-level failures -/

theorem popSend_sendLog (env : Env) (eid : Nat) (body : String) :
    (popSend env eid body).2.sendLog = env.sendLog ++ [(eid, body)] := by
  cases h : env.sends <;> simp [popSend, h]

theorem create_sendLog (env : Env) :
    (create_smtp_connection env).2.sendLog = env.sendLog := by
  cases h : env.connects <;> simp [create_smtp_connection, popConnect, h]

theorem popUuid_sendLog (env : Env) : (popUuid env).2.sendLog = env.sendLog := by
  cases h : env.uuids <;> simp [popUuid, h]

/-- `safe_send` performs one or two `send_message` calls for the given email,
and nothing else touches the log. -/
theorem safe_send_sendLog (env : Env) (eid : Nat) (body : String) :
    (safe_send env eid body).2.sendLog = env.sendLog ++ [(eid, body)] ∨
    (safe_send env eid body).2.sendLog =
      env.sendLog ++ [(eid, body), (eid, body)] := by
  rcases hp : popSend env eid body with ⟨o, env1⟩
  have h1 : env1.sendLog = env.sendLog ++ [(eid, body)] := by
    have := popSend_sendLog env eid body
    rw [hp] at this
    exact this
  cases o with
  | none => left; simp [safe_send, hp, h1]
  | some err =>
    by_cases hrl : isRateLimitErr err
    · left; simp [safe_send, hp, hrl, h1]
    · rcases hc : create_smtp_connection env1 with ⟨c, env2⟩
      have h2 : env2.sendLog = env1.sendLog := by
        have := create_sendLog env1
        rw [hc] at this
        exact this
      cases c with
      | none => left; simp [safe_send, hp, hrl, hc, h2, h1]
      | some u =>
        rcases hp2 : popSend env2 eid body with ⟨o2, env3⟩
        have h3 : env3.sendLog = env2.sendLog ++ [(eid, body)] := by
          have := popSend_sendLog env2 eid body
          rw [hp2] at this
          exact this
        right
        cases o2 with
        | none => simp [safe_send, hp, hrl, hc, hp2, h3, h2, h1]
        | some err2 =>
          by_cases hrl2 : isRateLimitErr err2 <;>
            simp [safe_send, hp, hrl, hc, hp2, hrl2, h3, h2, h1]

/-- Once connected, processing one email keeps a live server handle. -/
theorem processEmailConnected_server (sett : SMTPSettings) (st : LoopState)
    (e : Email) (h : st.server = some ()) :
    (processEmailConnected sett st e).server = some () := by
  simp only [processEmailConnected]
  cases e.tracking_id <;> (dsimp only []; split <;> simp [h])

theorem processEmailConnected_counter (sett : SMTPSettings) (st : LoopState)
    (e : Email) :
    (processEmailConnected sett st e).counter ≤ st.counter + 1 := by
  simp only [processEmailConnected]
  cases e.tracking_id <;> (dsimp only []; split <;> simp)

/-- Once connected, processing one email always attempts at least one send of
that very email. -/
theorem processEmailConnected_sendLog (sett : SMTPSettings) (st : LoopState)
    (e : Email) :
    ∃ L, (processEmailConnected sett st e).env.sendLog = st.env.sendLog ++ L ∧
      L ≠ [] ∧ ∀ p ∈ L, p.1 = e.id := by
  have henv : ∀ env1 body, env1.sendLog = st.env.sendLog →
      ∃ L, (safe_send env1 e.id body).2.sendLog = st.env.sendLog ++ L ∧
        L ≠ [] ∧ ∀ p ∈ L, p.1 = e.id := by
    intro env1 body h
    rcases safe_send_sendLog env1 e.id body with h2 | h2
    · exact ⟨[(e.id, body)], by rw [h2, h], by simp, by simp⟩
    · exact ⟨[(e.id, body), (e.id, body)], by rw [h2, h], by simp, by simp⟩
  simp only [processEmailConnected]
  cases htid : e.tracking_id with
  | none =>
    have : (popUuid st.env).2.sendLog = st.env.sendLog := popUuid_sendLog st.env
    dsimp only []
    rcases henv (popUuid st.env).2
        (body_content (popUuid st.env).2.domain e.body (popUuid st.env).1
          (sett.signature.getD "")) this with ⟨L, hL, hne, hid⟩
    refine ⟨L, ?_, hne, hid⟩
    split <;> simpa using hL
  | some t =>
    dsimp only []
    rcases henv st.env (body_content st.env.domain e.body t (sett.signature.getD ""))
        rfl with ⟨L, hL, hne, hid⟩
    refine ⟨L, ?_, hne, hid⟩
    split <;> simpa using hL

/-- While the loop holds a live connection and stays below the refresh
watermark, **every** email of the remaining batch gets at least one send
attempt of its own. -/
theorem processLoop_attempts (sett : SMTPSettings) (es : List Email) :
    ∀ st : LoopState, st.server = some () →
      st.counter + es.length ≤ REFRESH_RATE →
      ∃ L, (processLoop sett st es).env.sendLog = st.env.sendLog ++ L ∧
        ∀ e2 ∈ es, e2.id ∈ L.map (fun p => p.1) := by
  induction es with
  | nil => exact fun st _ _ => ⟨[], by simp [processLoop], by simp⟩
  | cons e r ih =>
    intro st hs hc
    have hlt : ¬ REFRESH_RATE ≤ st.counter := by
      simp only [List.length_cons] at hc
      omega
    have hstx : ({ st with
        server := some ()
        counter := st.counter
        env := st.env } : LoopState) = st := by
      cases st
      simp_all
    have hpe : processEmail sett st e = processEmailConnected sett st e := by
      rw [processEmail]
      rw [if_neg hlt]
      rw [hs]
      dsimp only []
      rw [hstx]
    obtain ⟨L1, hL1, hL1ne, hL1id⟩ := processEmailConnected_sendLog sett st e
    have hs1 : (processEmail sett st e).server = some () := by
      rw [hpe]; exact processEmailConnected_server sett st e hs
    have hc1 : (processEmail sett st e).counter + r.length ≤ REFRESH_RATE := by
      have := processEmailConnected_counter sett st e
      rw [hpe]
      simp only [List.length_cons] at hc
      omega
    obtain ⟨L2, hL2, hL2mem⟩ := ih (processEmail sett st e) hs1 hc1
    refine ⟨L1 ++ L2, ?_, ?_⟩
    · have hloop : processLoop sett st (e :: r) =
          processLoop sett (processEmail sett st e) r := rfl
      rw [hloop, hL2, hpe, hL1, List.append_assoc]
    · intro e2 he2
      rcases List.mem_cons.mp he2 with h | h
      · subst h
        rcases List.exists_mem_of_ne_nil L1 hL1ne with ⟨p, hp⟩
        have : p.1 = e2.id := hL1id p hp
        simp only [List.map_append, List.mem_append]
        left
        exact List.mem_map.mpr ⟨p, hp, this⟩
      · simp only [List.map_append, List.mem_append]
        right
        exact hL2mem e2 h

/-- Claim C6: on a connection-level send failure (error text without a
rate-limit signal) the worker reconnects once and retries that same message.
If the retried send is accepted the message is marked `sent` (and the worker
adopts the fresh connection); if it fails again (again without a rate-limit
signal) only that message is marked `failed`, exactly two send attempts were
made for it, the worker still holds a server handle, and every remaining
message of the batch still receives at least one send attempt of its own. -/
theorem c6_conn_failure_reconnect (sett : SMTPSettings) (st : LoopState)
    (e : Email) (err : String) (cs : List Bool) (sends2 : List (Option String))
    (hserver : st.server = some ())
    (hcounter : st.counter < REFRESH_RATE)
    (hrl : isRateLimitErr err = false)
    (hconn : st.env.connects = true :: cs) :
    (st.env.sends = some err :: none :: sends2 →
      (processEmail sett st e).processed.map (fun p => (p.id, p.status)) =
        st.processed.map (fun p => (p.id, p.status)) ++ [(e.id, "sent")] ∧
      (processEmail sett st e).server = some ()) ∧
    (∀ err2, isRateLimitErr err2 = false →
      st.env.sends = some err :: some err2 :: sends2 →
      (processEmail sett st e).processed.map (fun p => (p.id, p.status)) =
        st.processed.map (fun p => (p.id, p.status)) ++ [(e.id, "failed")] ∧
      (processEmail sett st e).server = some () ∧
      (processEmail sett st e).env.sendLog.map (fun p => p.1) =
        st.env.sendLog.map (fun p => p.1) ++ [e.id, e.id] ∧
      (processEmail sett st e).counter = st.counter ∧
      ∀ es, (processEmail sett st e).counter + es.length ≤ REFRESH_RATE →
        ∃ L, (processLoop sett (processEmail sett st e) es).env.sendLog =
            (processEmail sett st e).env.sendLog ++ L ∧
          ∀ e2 ∈ es, e2.id ∈ L.map (fun p => p.1)) := by
  have hnr : ¬ REFRESH_RATE ≤ st.counter := by omega
  constructor
  · intro hsends
    constructor <;>
    · cases htid : e.tracking_id <;>
        cases huu : st.env.uuids <;>
          simp [processEmail, processEmailConnected, safe_send, popSend, popUuid,
            create_smtp_connection, popConnect, hnr, hserver, hsends, hrl, hconn,
            htid, huu]
  · intro err2 hrl2 hsends
    have hsrv : (processEmail sett st e).server = some () := by
      cases htid : e.tracking_id <;>
        cases huu : st.env.uuids <;>
          simp [processEmail, processEmailConnected, safe_send, popSend, popUuid,
            create_smtp_connection, popConnect, hnr, hserver, hsends, hrl, hrl2,
            hconn, htid, huu]
    refine ⟨?_, hsrv, ?_, ?_, fun es hle => processLoop_attempts sett es _ hsrv hle⟩ <;>
    · cases htid : e.tracking_id <;>
        cases huu : st.env.uuids <;>
          simp [processEmail, processEmailConnected, safe_send, popSend, popUuid,
            create_smtp_connection, popConnect, hnr, hserver, hsends, hrl, hrl2,
            hconn, htid, huu]

/-- Claim C6, witness: the reconnect-and-send and double-failure conclusions
at concrete inputs. -/
theorem c6_conn_failure_reconnect_witness :
    stC6A.server = some () ∧ isRateLimitErr "boom" = false ∧
    stC6A.env.connects = [true] ∧ stC6A.env.sends = [some "boom", none] ∧
    (processEmail sett7 stC6A baseEmail).processed.map (fun p => (p.id, p.status)) =
      [(1, "sent")] ∧
    stC6B.env.sends = [some "boom", some "crash"] ∧
    isRateLimitErr "crash" = false ∧
    (processEmail sett7 stC6B baseEmail).processed.map (fun p => (p.id, p.status)) =
      [(1, "failed")] ∧
    (processEmail sett7 stC6B baseEmail).server = some () := by
  have hA := (c6_conn_failure_reconnect sett7 stC6A baseEmail "boom" [] []
    rfl (by decide) (by decide) rfl).1 rfl
  have hB := (c6_conn_failure_reconnect sett7 stC6B baseEmail "boom" [] []
    rfl (by decide) (by decide) rfl).2 "crash" (by decide) rfl
  refine ⟨rfl, by decide, rfl, rfl, ?_, rfl, by decide, ?_, hB.2.1⟩
  · simpa using hA.1
  · simpa using hB.1

/-! ## Lemmas: chunking -/

theorem chunksFuel_flatten : ∀ (f : Nat) (l : List Nat), l.length ≤ f →
    (chunksFuel f l).flatten = l := by
  intro f
  induction f with
  | zero =>
    intro l h
    have : l = [] := List.eq_nil_of_length_eq_zero (by omega)
    subst this
    simp [chunksFuel]
  | succ f ih =>
    intro l h
    cases l with
    | nil => simp [chunksFuel]
    | cons a t =>
      have hlen : ((a :: t).drop 50).length ≤ f := by
        simp only [List.length_cons] at h
        simp only [List.length_drop, List.length_cons]
        omega
      show ((a :: t).take 50 :: chunksFuel f ((a :: t).drop 50)).flatten = a :: t
      rw [List.flatten_cons, ih ((a :: t).drop 50) hlen]
      exact List.take_append_drop 50 (a :: t)

theorem chunks50_flatten (l : List Nat) : (chunks50 l).flatten = l :=
  chunksFuel_flatten l.length l le_rfl

theorem chunksFuel_bounds : ∀ (f : Nat) (l : List Nat), l.length ≤ f →
    ∀ c ∈ chunksFuel f l, c.length ≤ 50 ∧ c ≠ [] := by
  intro f
  induction f with
  | zero =>
    intro l h
    have : l = [] := List.eq_nil_of_length_eq_zero (by omega)
    subst this
    simp [chunksFuel]
  | succ f ih =>
    intro l h c hc
    cases l with
    | nil => simp [chunksFuel] at hc
    | cons a t =>
      have hc2 : c ∈ (a :: t).take 50 :: chunksFuel f ((a :: t).drop 50) := hc
      rcases List.mem_cons.mp hc2 with h1 | h1
      · subst h1
        constructor
        · simp
        · show (a :: t.take 49) ≠ []
          simp
      · refine ih ((a :: t).drop 50) ?_ c h1
        simp only [List.length_cons] at h
        simp only [List.length_drop, List.length_cons]
        omega

theorem chunks50_bounds (l : List Nat) : ∀ c ∈ chunks50 l, c.length ≤ 50 ∧ c ≠ [] :=
  chunksFuel_bounds l.length l le_rfl

theorem chunks50_mem_subset (l : List Nat) (c : List Nat) (hc : c ∈ chunks50 l) :
    ∀ i ∈ c, i ∈ l := by
  intro i hi
  rw [← chunks50_flatten l]
  exact List.mem_flatten.mpr ⟨c, hc, hi⟩

/-! ## Lemmas: grouping by owner -/

theorem addToGroups_flatten (gs : List (Nat × List Nat)) (uid eid : Nat) :
    List.Perm (((addToGroups gs uid eid).map (fun g => g.2)).flatten)
      (((gs.map (fun g => g.2)).flatten) ++ [eid]) := by
  induction gs with
  | nil => simp [addToGroups]
  | cons g t ih =>
    rcases g with ⟨u, l⟩
    by_cases h : u == uid
    · simp only [addToGroups, h, if_pos]
      simp only [List.map_cons, List.flatten_cons, List.append_assoc]
      exact List.Perm.append_left l (List.perm_append_comm)
    · simp only [addToGroups, h, if_neg, Bool.false_eq_true, not_false_iff]
      simp only [List.map_cons, List.flatten_cons, List.append_assoc]
      exact List.Perm.append_left l ih

theorem groupByOwner_aux (s : Store) : ∀ (pending : List Email)
    (gs : List (Nat × List Nat)),
    List.Perm
      (((pending.foldl (fun gs e =>
          match ownerId s e with
          | none => gs
          | some uid => addToGroups gs uid e.id) gs).map (fun g => g.2)).flatten)
      ((gs.map (fun g => g.2)).flatten ++ ownedIds s pending) := by
  intro pending
  induction pending with
  | nil => intro gs; simp [ownedIds]
  | cons e r ih =>
    intro gs
    cases ho : ownerId s e with
    | none =>
      have hdrop : ownedIds s (e :: r) = ownedIds s r := by
        simp [ownedIds, List.filter_cons, ho]
      simp only [List.foldl_cons, ho, hdrop]
      exact ih gs
    | some uid =>
      have hkeep : ownedIds s (e :: r) = e.id :: ownedIds s r := by
        simp [ownedIds, List.filter_cons, ho]
      simp only [List.foldl_cons, ho, hkeep]
      refine (ih (addToGroups gs uid e.id)).trans ?_
      refine List.Perm.append_right (ownedIds s r) (addToGroups_flatten gs uid e.id)
        |>.trans ?_
      simp only [List.append_assoc]
      exact List.Perm.append_left _ (by simp)

theorem groupByOwner_flatten_perm (s : Store) (pending : List Email) :
    List.Perm (((groupByOwner s pending).map (fun g => g.2)).flatten)
      (ownedIds s pending) := by
  simpa [groupByOwner] using groupByOwner_aux s pending []

theorem addToGroups_pred (P : Nat → Nat → Prop) (gs : List (Nat × List Nat))
    (uid eid : Nat) (hgs : ∀ g ∈ gs, ∀ i ∈ g.2, P g.1 i) (hP : P uid eid) :
    ∀ g ∈ addToGroups gs uid eid, ∀ i ∈ g.2, P g.1 i := by
  induction gs with
  | nil =>
    intro g hg i hi
    simp only [addToGroups, List.mem_singleton] at hg
    subst hg
    simp only [List.mem_singleton] at hi
    subst hi
    exact hP
  | cons g0 t ih =>
    rcases g0 with ⟨u, l⟩
    by_cases h : u == uid
    · intro g hg i hi
      simp only [addToGroups, h, if_pos] at hg
      rcases List.mem_cons.mp hg with h1 | h1
      · subst h1
        rcases List.mem_append.mp hi with h2 | h2
        · exact hgs (u, l) (List.mem_cons_self _ _) i h2
        · simp only [List.mem_singleton] at h2
          subst h2
          have hu : u = uid := by simpa using h
          subst hu
          exact hP
      · exact hgs g (List.mem_cons_of_mem _ h1) i hi
    · intro g hg i hi
      simp only [addToGroups, h, if_neg, Bool.false_eq_true, not_false_iff] at hg
      rcases List.mem_cons.mp hg with h1 | h1
      · subst h1
        exact hgs (u, l) (List.mem_cons_self _ _) i hi
      · exact ih (fun g2 hg2 => hgs g2 (List.mem_cons_of_mem _ hg2)) g h1 i hi

theorem groupByOwner_owners (s : Store) (pending : List Email) :
    ∀ g ∈ groupByOwner s pending, ∀ i ∈ g.2,
      ∃ e ∈ pending, e.id = i ∧ ownerId s e = some g.1 := by
  suffices h : ∀ (l : List Email) (gs : List (Nat × List Nat)),
      (∀ g ∈ gs, ∀ i ∈ g.2, ∃ e ∈ pending, e.id = i ∧ ownerId s e = some g.1) →
      (∀ e ∈ l, e ∈ pending) →
      ∀ g ∈ l.foldl (fun gs e =>
          match ownerId s e with
          | none => gs
          | some uid => addToGroups gs uid e.id) gs, ∀ i ∈ g.2,
        ∃ e ∈ pending, e.id = i ∧ ownerId s e = some g.1 by
    exact fun g hg => h pending [] (by simp) (fun e he => he) g hg
  intro l
  induction l with
  | nil => intro gs hgs _; simpa using hgs
  | cons e r ih =>
    intro gs hgs hsub
    cases ho : ownerId s e with
    | none =>
      simp only [List.foldl_cons, ho]
      exact ih gs hgs (fun x hx => hsub x (List.mem_cons_of_mem _ hx))
    | some uid =>
      simp only [List.foldl_cons, ho]
      refine ih _ ?_ (fun x hx => hsub x (List.mem_cons_of_mem _ hx))
      exact addToGroups_pred
        (fun uid i => ∃ e ∈ pending, e.id = i ∧ ownerId s e = some uid)
        gs uid e.id hgs ⟨e, hsub e (List.mem_cons_self _ _), rfl, ho⟩

/-! ## Lemmas: chunk numbering and stamping -/

theorem userChunks_flatten (gs : List (Nat × List Nat)) :
    (((userChunks gs).map (fun p => p.2)).flatten) =
      ((gs.map (fun g => g.2)).flatten) := by
  induction gs with
  | nil => simp [userChunks]
  | cons g t ih =>
    have ih2 := ih
    simp only [userChunks] at ih2
    simp only [userChunks, List.flatMap_cons, List.map_append, List.flatten_append,
      List.map_map, List.map_cons, List.flatten_cons]
    rw [ih2]
    have h1 : (chunks50 g.2).map
        ((fun p : Nat × List Nat => p.2) ∘ (fun c => (g.1, c))) = chunks50 g.2 := by
      simp
    rw [h1, chunks50_flatten]

theorem numberChunks_map_chunks (now : Nat) : ∀ (c0 : Nat)
    (l : List (Nat × List Nat)),
    (numberChunks now c0 l).map (fun p => p.2) = l.map (fun g => g.2) := by
  intro c0 l
  induction l generalizing c0 with
  | nil => simp [numberChunks]
  | cons g r ih =>
    rcases g with ⟨uid, c⟩
    simp [numberChunks, ih]

theorem userChunks_mem (gs : List (Nat × List Nat)) (p : Nat × List Nat)
    (hp : p ∈ userChunks gs) : ∃ g ∈ gs, p.1 = g.1 ∧ p.2 ∈ chunks50 g.2 := by
  simp only [userChunks, List.mem_flatMap, List.mem_map] at hp
  rcases hp with ⟨g, hg, c, hc, hpc⟩
  subst hpc
  exact ⟨g, hg, rfl, hc⟩

theorem numberChunks_mem (now : Nat) : ∀ (c0 : Nat) (l : List (Nat × List Nat))
    (p : String × List Nat), p ∈ numberChunks now c0 l →
    ∃ uid k, c0 ≤ k ∧ p.1 = mkBatchId uid now k ∧ (uid, p.2) ∈ l := by
  intro c0 l
  induction l generalizing c0 with
  | nil => intro p hp; simp [numberChunks] at hp
  | cons g r ih =>
    rcases g with ⟨uid, c⟩
    intro p hp
    rcases List.mem_cons.mp hp with h1 | h1
    · subst h1
      exact ⟨uid, c0, le_rfl, rfl, List.mem_cons_self _ _⟩
    · rcases ih (c0 + 1) p h1 with ⟨uid2, k, hk, hbid, hmem⟩
      exact ⟨uid2, k, by omega, hbid, List.mem_cons_of_mem _ hmem⟩

theorem dispatchedIds_cons (p : String × List Nat) (t : List (String × List Nat)) :
    dispatchedIds (p :: t) = p.2 ++ dispatchedIds t := by
  simp [dispatchedIds]

theorem dispatchedIds_append (a b : List (String × List Nat)) :
    dispatchedIds (a ++ b) = dispatchedIds a ++ dispatchedIds b := by
  simp [dispatchedIds]

theorem stampAll_preserve (plan : List (String × List Nat)) : ∀ (e : Email),
    (stampAll plan e).id = e.id ∧ (stampAll plan e).status = e.status ∧
      (stampAll plan e).rate_limit_retry_at = e.rate_limit_retry_at := by
  induction plan with
  | nil => intro e; exact ⟨rfl, rfl, rfl⟩
  | cons p t ih =>
    intro e
    have hstep : stampAll (p :: t) e =
        stampAll t (if p.2.contains e.id then { e with batch_id := some p.1 }
          else e) := rfl
    rcases ih (if p.2.contains e.id then { e with batch_id := some p.1 } else e)
      with ⟨h1, h2, h3⟩
    rw [hstep]
    exact ⟨by rw [h1]; split <;> rfl, by rw [h2]; split <;> rfl,
      by rw [h3]; split <;> rfl⟩

theorem stampAll_not_mem (plan : List (String × List Nat)) : ∀ (e : Email),
    e.id ∉ dispatchedIds plan → stampAll plan e = e := by
  induction plan with
  | nil => intro e _; rfl
  | cons p t ih =>
    intro e he
    rw [dispatchedIds_cons] at he
    have h1 : e.id ∉ p.2 := fun h => he (List.mem_append.mpr (Or.inl h))
    have h2 : e.id ∉ dispatchedIds t := fun h => he (List.mem_append.mpr (Or.inr h))
    have hcont : p.2.contains e.id = false := by
      simpa using h1
    show stampAll t (if p.2.contains e.id then { e with batch_id := some p.1 }
        else e) = e
    rw [hcont]
    simpa using ih e h2

theorem stampAll_some_of_mem (plan : List (String × List Nat)) : ∀ (e : Email),
    e.id ∈ dispatchedIds plan →
    ∃ bid, (stampAll plan e).batch_id = some bid := by
  induction plan with
  | nil => intro e he; simp [dispatchedIds] at he
  | cons p t ih =>
    intro e he
    show ∃ bid, (stampAll t (if p.2.contains e.id then { e with batch_id := some p.1 }
        else e)).batch_id = some bid
    by_cases hd : e.id ∈ dispatchedIds t
    · have : (if p.2.contains e.id then { e with batch_id := some p.1 }
          else e).id ∈ dispatchedIds t := by
        split <;> simpa using hd
      exact ih _ this
    · rw [dispatchedIds_cons] at he
      have hp : e.id ∈ p.2 := by
        rcases List.mem_append.mp he with h | h
        · exact h
        · exact absurd h hd
      have hcont : p.2.contains e.id = true := by simpa using hp
      rw [hcont]
      have hid : ({ e with batch_id := some p.1 } : Email).id = e.id := rfl
      rw [if_pos rfl]
      rw [stampAll_not_mem t _ (by rw [hid]; exact hd)]
      exact ⟨p.1, rfl⟩

theorem stampAll_exact : ∀ (plan : List (String × List Nat)),
    (dispatchedIds plan).Nodup → ∀ p ∈ plan, ∀ (e : Email), e.id ∈ p.2 →
    (stampAll plan e).batch_id = some p.1 := by
  intro plan
  induction plan with
  | nil => intro _ p hp; simp at hp
  | cons q t ih =>
    intro hnd p hp e he
    rw [dispatchedIds_cons] at hnd
    rcases List.mem_cons.mp hp with h1 | h1
    · subst h1
      have hcont : p.2.contains e.id = true := by simpa using he
      have hnot : e.id ∉ dispatchedIds t := by
        have hdisj := (List.nodup_append.mp hnd).2.2
        intro hmem
        exact hdisj he hmem
      show (stampAll t (if p.2.contains e.id then { e with batch_id := some p.1 }
          else e)).batch_id = some p.1
      rw [hcont, if_pos rfl]
      rw [stampAll_not_mem t _ (by simpa using hnot)]
    · have htl : e.id ∈ dispatchedIds t :=
        List.mem_flatten.mpr ⟨p.2, List.mem_map.mpr ⟨p, h1, rfl⟩, he⟩
      have hq : e.id ∉ q.2 := by
        intro hmem
        exact (List.nodup_append.mp hnd).2.2 hmem htl
      have hcont : q.2.contains e.id = false := by simpa using hq
      show (stampAll t (if q.2.contains e.id then { e with batch_id := some q.1 }
          else e)).batch_id = some p.1
      rw [hcont]
      simpa using ih (List.nodup_append.mp hnd).2.1 p h1 e he

theorem runPlan_emails : ∀ (plan : List (String × List Nat)) (s : Store),
    (runPlan s plan).emails = s.emails.map (stampAll plan) := by
  intro plan
  induction plan with
  | nil =>
    intro s
    show s.emails = _
    have h1 : s.emails.map (stampAll []) = s.emails.map id :=
      List.map_congr_left (fun e _ => rfl)
    rw [h1, List.map_id]
  | cons p t ih =>
    intro s
    show (runPlan (stampChunk s p.2 p.1) t).emails = _
    rw [ih]
    simp only [stampChunk, List.map_map]
    exact List.map_congr_left (fun e _ => rfl)

/-! ## Lemmas: selection and reclaim -/

theorem selectEligible_sublist (now : Nat) (s : Store) :
    List.Sublist (selectEligible now s) s.emails :=
  (List.take_sublist _ _).trans (List.filter_sublist _)

theorem selectEligible_batch_none (now : Nat) (s : Store) (e : Email)
    (he : e ∈ selectEligible now s) : e.batch_id = none := by
  have h1 : e ∈ s.emails.filter (eligible now) :=
    (List.take_sublist _ _).subset he
  have h2 := List.of_mem_filter h1
  simp only [eligible, Bool.and_eq_true, Option.isNone_iff_eq_none] at h2
  exact h2.2

theorem selectEligible_len (now : Nat) (s : Store) :
    (selectEligible now s).length ≤ 2000 := by
  simp [selectEligible]

theorem reclaim_project (now : Nat) (s : Store) :
    (reclaimDeferrals now s).emails.map (fun e => (e.id, e.batch_id, e.status)) =
      s.emails.map (fun e => (e.id, e.batch_id, e.status)) := by
  simp only [reclaimDeferrals, List.map_map]
  exact List.map_congr_left (fun e _ => by
    simp only [Function.comp_apply]
    split <;> rfl)

theorem reclaim_ids (now : Nat) (s : Store) :
    (reclaimDeferrals now s).emails.map (fun e => e.id) =
      s.emails.map (fun e => e.id) := by
  simp only [reclaimDeferrals, List.map_map]
  exact List.map_congr_left (fun e _ => by
    simp only [Function.comp_apply]
    split <;> rfl)

/-! ## Lemmas: unique rows -/

theorem find_by_id_of_nodup : ∀ (l : List Email),
    (l.map (fun x => x.id)).Nodup → ∀ e ∈ l,
    l.find? (fun x => x.id == e.id) = some e := by
  intro l
  induction l with
  | nil => intro _ e he; simp at he
  | cons a t ih =>
    intro hnd e he
    by_cases hae : a.id == e.id
    · have h1 : a = e := by
        rcases List.mem_cons.mp he with h | h
        · exact h.symm
        · exfalso
          have hid : a.id = e.id := by simpa using hae
          have hmem : a.id ∈ t.map (fun x => x.id) :=
            List.mem_map.mpr ⟨e, h, hid.symm⟩
          exact (List.nodup_cons.mp hnd).1 hmem
      subst h1
      simp [List.find?_cons]
    · have h1 : e ∈ t := by
        rcases List.mem_cons.mp he with h | h
        · exfalso; subst h; simp at hae
        · exact h
      rw [List.find?_cons]
      simp only [hae]
      exact ih (List.nodup_cons.mp hnd).2 e h1

theorem ownedIds_nodup (s : Store) (l : List Email)
    (hl : List.Sublist l s.emails)
    (h : (s.emails.map (fun x => x.id)).Nodup) : (ownedIds s l).Nodup := by
  have h1 : List.Sublist (l.filter (fun e => (ownerId s e).isSome)) s.emails :=
    (List.filter_sublist l).trans hl
  have h2 : List.Sublist (ownedIds s l) (s.emails.map (fun x => x.id)) :=
    h1.map (fun x : Email => x.id)
  exact List.Nodup.sublist h2 h

/-- A tick dispatches, as a multiset, exactly the ids of the selected messages
that have a determinable owner. -/
theorem dispatchedIds_perm (s : Store) (pending : List Email) (now : Nat) :
    List.Perm (dispatchedIds (planBatches s pending now)) (ownedIds s pending) := by
  have h1 : dispatchedIds (planBatches s pending now) =
      (((groupByOwner s pending).map (fun g => g.2)).flatten) := by
    simp only [dispatchedIds, planBatches, numberChunks_map_chunks]
    exact userChunks_flatten (groupByOwner s pending)
  rw [h1]
  exact groupByOwner_flatten_perm s pending

/-! ## Lemmas: decimal representation and batch-id freshness -/

theorem digitChar_isDigit (m : Nat) (h : m < 10) : (Nat.digitChar m).isDigit = true := by
  interval_cases m <;> decide

theorem digitChar_val (m : Nat) (h : m < 10) : (Nat.digitChar m).toNat - 48 = m := by
  interval_cases m <;> decide

theorem natChars_digits : ∀ n : Nat, ∀ c ∈ natChars n, c.isDigit = true := by
  intro n
  induction n using Nat.strong_induction_on with
  | _ n ih =>
    rw [natChars]
    split
    · intro c hc
      simp only [List.mem_singleton] at hc
      subst hc
      exact digitChar_isDigit n (by omega)
    · intro c hc
      rcases List.mem_append.mp hc with h | h
      · exact ih (n / 10) (Nat.div_lt_self (by omega) (by omega)) c h
      · simp only [List.mem_singleton] at h
        subst h
        exact digitChar_isDigit (n % 10) (Nat.mod_lt n (by omega))

theorem charsVal_append_digit (l : List Char) (c : Char) :
    charsVal (l ++ [c]) = 10 * charsVal l + (c.toNat - 48) := by
  simp [charsVal, List.foldl_append]

theorem charsVal_natChars : ∀ n : Nat, charsVal (natChars n) = n := by
  intro n
  induction n using Nat.strong_induction_on with
  | _ n ih =>
    rw [natChars]
    split
    · have h1 : charsVal [Nat.digitChar n] = (Nat.digitChar n).toNat - 48 := by
        simp [charsVal]
      rw [h1, digitChar_val n (by omega)]
    · rw [charsVal_append_digit,
        ih (n / 10) (Nat.div_lt_self (by omega) (by omega)),
        digitChar_val (n % 10) (Nat.mod_lt n (by omega))]
      omega

theorem natChars_inj {a b : Nat} (h : natChars a = natChars b) : a = b := by
  have h2 := congrArg charsVal h
  rwa [charsVal_natChars, charsVal_natChars] at h2

theorem toDigitsCore_eq_natChars : ∀ (fuel n : Nat) (ds : List Char), n < fuel →
    Nat.toDigitsCore 10 fuel n ds = natChars n ++ ds := by
  intro fuel
  induction fuel with
  | zero => intro n ds h; omega
  | succ f ih =>
    intro n ds h
    simp only [Nat.toDigitsCore]
    by_cases h0 : n / 10 = 0
    · have hn : n < 10 := by omega
      rw [if_pos h0, natChars, dif_pos hn, Nat.mod_eq_of_lt hn]
      rfl
    · have hn : ¬ n < 10 := by omega
      rw [if_neg h0, ih (n / 10) (Nat.digitChar (n % 10) :: ds) (by omega)]
      conv_rhs => rw [natChars, dif_neg hn]
      simp

theorem repr_data_eq_natChars (n : Nat) : (Nat.repr n).data = natChars n := by
  show (Nat.toDigits 10 n).asString.data = _
  rw [Nat.toDigits, toDigitsCore_eq_natChars (n + 1) n [] (by omega),
    List.append_nil]
  rfl

theorem nat_repr_inj {a b : Nat} (h : Nat.repr a = Nat.repr b) : a = b := by
  apply natChars_inj
  rw [← repr_data_eq_natChars, ← repr_data_eq_natChars, h]

theorem repr_digits (n : Nat) : ∀ c ∈ (Nat.repr n).data, c.isDigit = true := by
  rw [repr_data_eq_natChars]
  exact natChars_digits n

theorem digit_ne_underscore (c : Char) (h : c.isDigit = true) :
    (c != ("_" : String).front) = true := by
  by_cases hc : c = ("_" : String).front
  · subst hc
    exact absurd h (by decide)
  · simpa using hc

theorem takeWhile_all_append (p : Char → Bool) : ∀ (a b : List Char) (c0 : Char),
    p c0 = false → (∀ c ∈ a, p c = true) →
    List.takeWhile p (a ++ c0 :: b) = a := by
  intro a
  induction a with
  | nil =>
    intro b c0 h0 _
    simp [List.takeWhile_cons, h0]
  | cons x t ih =>
    intro b c0 h0 hall
    have hx : p x = true := hall x (List.mem_cons_self _ _)
    have htail := ih b c0 h0 (fun c hc => hall c (List.mem_cons_of_mem _ hc))
    simp [List.cons_append, List.takeWhile_cons, hx, htail]

theorem afterLastUnderscore_mkBatchId (uid now ctr : Nat) :
    afterLastUnderscore (mkBatchId uid now ctr) = (Nat.repr ctr).data.reverse := by
  have hdata : (mkBatchId uid now ctr).data =
      (("batch_" ++ Nat.repr uid ++ "_" ++ Nat.repr now).data ++
        [ ("_" : String).front ]) ++ (Nat.repr ctr).data := by
    have hu : ("_" : String).data = [("_" : String).front] := by decide
    simp [mkBatchId, String.data_append, hu]
    decide
  rw [afterLastUnderscore, hdata]
  rw [List.reverse_append, List.reverse_append]
  simp only [List.reverse_cons, List.reverse_nil, List.nil_append,
    List.singleton_append, List.cons_append]
  rw [takeWhile_all_append _ _ _ _ (by decide)
    (fun c hc => digit_ne_underscore c
      (repr_digits ctr c (List.mem_reverse.mp hc)))]

theorem mkBatchId_inj_ctr {u1 u2 now c1 c2 : Nat}
    (h : mkBatchId u1 now c1 = mkBatchId u2 now c2) : c1 = c2 := by
  have h2 := congrArg afterLastUnderscore h
  rw [afterLastUnderscore_mkBatchId, afterLastUnderscore_mkBatchId] at h2
  have h3 : (Nat.repr c1).data = (Nat.repr c2).data := by
    have h4 := congrArg List.reverse h2
    simpa using h4
  exact nat_repr_inj (String.ext h3)

theorem numberChunks_bid_mem (now : Nat) : ∀ (c0 : Nat)
    (l : List (Nat × List Nat)) (bid : String),
    bid ∈ (numberChunks now c0 l).map (fun p => p.1) →
    ∃ uid k, c0 ≤ k ∧ bid = mkBatchId uid now k := by
  intro c0 l bid hmem
  rcases List.mem_map.mp hmem with ⟨p, hp, hbid⟩
  rcases numberChunks_mem now c0 l p hp with ⟨uid, k, hk, hpbid, _⟩
  exact ⟨uid, k, hk, hbid ▸ hpbid⟩

/-- Within one tick the generated batch identifiers are pairwise distinct:
every chunk gets a fresh one. -/
theorem numberChunks_bids_nodup (now : Nat) : ∀ (c0 : Nat)
    (l : List (Nat × List Nat)),
    ((numberChunks now c0 l).map (fun p => p.1)).Nodup := by
  intro c0 l
  induction l generalizing c0 with
  | nil => simp [numberChunks]
  | cons g r ih =>
    rcases g with ⟨uid, c⟩
    simp only [numberChunks, List.map_cons, List.nodup_cons]
    refine ⟨?_, ih (c0 + 1)⟩
    intro hmem
    rcases numberChunks_bid_mem now (c0 + 1) r _ hmem with ⟨uid2, k, hk, hbid⟩
    have : c0 = k := mkBatchId_inj_ctr hbid
    omega

/-- Claim C2, amended: each tick first resets `rate_limit_retry_at` to null
for every pending message whose deferral has passed, and then dispatches
exactly those of the selected messages (status pending, due, undeferred,
unclaimed, at most 2000, in store order) **whose owning identity can be
determined** — selected messages without a campaign owner are silently
dropped, neither stamped nor dispatched.  The dispatch is partitioned so that
messages of different owners never share a batch, sliced into nonempty chunks
of at most 50, and each chunk is stamped with its own batch identifier —
pairwise distinct within the tick — before the worker task is queued. -/
theorem c2_tick_dispatch (s : Store) (now : Nat)
    (hnd : (s.emails.map (fun x => x.id)).Nodup) :
    (scheduler_dispatcher s now).1.emails.map (fun e => e.rate_limit_retry_at) =
      s.emails.map (fun e =>
        if e.status == "pending" &&
            (match e.rate_limit_retry_at with
             | none => false
             | some t => decide (t ≤ now)) then none
        else e.rate_limit_retry_at) ∧
    List.Perm (dispatchedIds (scheduler_dispatcher s now).2)
      (ownedIds (reclaimDeferrals now s)
        (selectEligible now (reclaimDeferrals now s))) ∧
    (dispatchedIds (scheduler_dispatcher s now).2).length ≤ 2000 ∧
    (∀ p ∈ (scheduler_dispatcher s now).2, p.2.length ≤ 50 ∧ p.2 ≠ []) ∧
    (∀ p ∈ (scheduler_dispatcher s now).2, ∃ uid, ∀ i ∈ p.2,
      ownerOfId (reclaimDeferrals now s) i = some uid) ∧
    (∀ p ∈ (scheduler_dispatcher s now).2, ∀ i ∈ p.2,
      ∃ e2 ∈ (scheduler_dispatcher s now).1.emails, e2.id = i ∧
        e2.batch_id = some p.1) ∧
    ((scheduler_dispatcher s now).2.map (fun p => p.1)).Nodup := by
  have hfst : (scheduler_dispatcher s now).1 =
      runPlan (reclaimDeferrals now s)
        (planBatches (reclaimDeferrals now s)
          (selectEligible now (reclaimDeferrals now s)) now) := rfl
  have hsnd : (scheduler_dispatcher s now).2 =
      planBatches (reclaimDeferrals now s)
        (selectEligible now (reclaimDeferrals now s)) now := rfl
  have hnd1 : ((reclaimDeferrals now s).emails.map (fun x => x.id)).Nodup := by
    rw [reclaim_ids]; exact hnd
  have hperm : List.Perm
      (dispatchedIds (planBatches (reclaimDeferrals now s)
        (selectEligible now (reclaimDeferrals now s)) now))
      (ownedIds (reclaimDeferrals now s)
        (selectEligible now (reclaimDeferrals now s))) :=
    dispatchedIds_perm _ _ now
  have hsub : List.Sublist (selectEligible now (reclaimDeferrals now s))
      (reclaimDeferrals now s).emails := selectEligible_sublist now _
  have hodnd : (ownedIds (reclaimDeferrals now s)
      (selectEligible now (reclaimDeferrals now s))).Nodup :=
    ownedIds_nodup _ _ hsub hnd1
  have hdnd : (dispatchedIds (planBatches (reclaimDeferrals now s)
      (selectEligible now (reclaimDeferrals now s)) now)).Nodup :=
    hperm.nodup_iff.mpr hodnd
  refine ⟨?_, ?_, ?_, ?_, ?_, ?_, ?_⟩
  · -- reclaim-then-stamp: final deferral timestamps
    rw [hfst, runPlan_emails, List.map_map]
    have h1 : (reclaimDeferrals now s).emails.map
        ((fun e => e.rate_limit_retry_at) ∘
          stampAll (planBatches (reclaimDeferrals now s)
            (selectEligible now (reclaimDeferrals now s)) now)) =
        (reclaimDeferrals now s).emails.map (fun e => e.rate_limit_retry_at) :=
      List.map_congr_left (fun e _ => (stampAll_preserve _ e).2.2)
    rw [h1]
    simp only [reclaimDeferrals, List.map_map]
    exact List.map_congr_left (fun e _ => by
      simp only [Function.comp_apply]
      split <;> rfl)
  · rw [hsnd]; exact hperm
  · rw [hsnd, hperm.length_eq]
    calc (ownedIds (reclaimDeferrals now s)
          (selectEligible now (reclaimDeferrals now s))).length
        ≤ (selectEligible now (reclaimDeferrals now s)).length := by
          simp only [ownedIds, List.length_map]
          exact List.length_filter_le _ _
      _ ≤ 2000 := selectEligible_len now _
  · rw [hsnd]
    intro p hp
    rcases numberChunks_mem now 0 _ p hp with ⟨uid, k, _, _, hmem⟩
    rcases userChunks_mem _ (uid, p.2) hmem with ⟨g, hg, _, hc⟩
    exact chunks50_bounds g.2 p.2 hc
  · rw [hsnd]
    intro p hp
    rcases numberChunks_mem now 0 _ p hp with ⟨uid, k, _, _, hmem⟩
    rcases userChunks_mem _ (uid, p.2) hmem with ⟨g, hg, _, hc⟩
    refine ⟨g.1, ?_⟩
    intro i hi
    have hig : i ∈ g.2 := chunks50_mem_subset g.2 p.2 hc i hi
    rcases groupByOwner_owners _ _ g hg i hig with ⟨e, hesel, heid, heown⟩
    have hfind := find_by_id_of_nodup _ hnd1 e (hsub.subset hesel)
    show ownerOfId (reclaimDeferrals now s) i = some g.1
    rw [ownerOfId, ← heid, hfind]
    exact heown
  · rw [hsnd, hfst]
    intro p hp i hi
    rcases numberChunks_mem now 0 _ p hp with ⟨uid, k, _, _, hmem⟩
    rcases userChunks_mem _ (uid, p.2) hmem with ⟨g, hg, _, hc⟩
    have hig : i ∈ g.2 := chunks50_mem_subset g.2 p.2 hc i hi
    rcases groupByOwner_owners _ _ g hg i hig with ⟨e, hesel, heid, _⟩
    rw [runPlan_emails]
    refine ⟨stampAll _ e, List.mem_map_of_mem _ (hsub.subset hesel), ?_, ?_⟩
    · rw [(stampAll_preserve _ e).1, heid]
    · exact stampAll_exact _ hdnd p hp e (by rw [heid]; exact hi)
  · rw [hsnd]
    exact numberChunks_bids_nodup now 0 _

/-- Claim C2, witness: the amended dispatch description at a concrete store. -/
theorem c2_tick_dispatch_witness :
    (storeOwned.emails.map (fun x => x.id)).Nodup ∧
    List.Perm (dispatchedIds (scheduler_dispatcher storeOwned 0).2)
      (ownedIds (reclaimDeferrals 0 storeOwned)
        (selectEligible 0 (reclaimDeferrals 0 storeOwned))) ∧
    ((scheduler_dispatcher storeOwned 0).2.map (fun p => p.1)).Nodup := by
  have h := c2_tick_dispatch storeOwned 0 (by decide)
  exact ⟨by decide, h.2.1, h.2.2.2.2.2.2⟩

/-! ## Lemmas: stamped messages and later ticks -/

theorem tick_ids (s : Store) (now : Nat) :
    (scheduler_dispatcher s now).1.emails.map (fun e => e.id) =
      s.emails.map (fun e => e.id) := by
  have hfst : (scheduler_dispatcher s now).1 =
      runPlan (reclaimDeferrals now s)
        (planBatches (reclaimDeferrals now s)
          (selectEligible now (reclaimDeferrals now s)) now) := rfl
  rw [hfst, runPlan_emails, List.map_map]
  have h1 : (reclaimDeferrals now s).emails.map
      ((fun e => e.id) ∘ stampAll (planBatches (reclaimDeferrals now s)
        (selectEligible now (reclaimDeferrals now s)) now)) =
      (reclaimDeferrals now s).emails.map (fun e => e.id) :=
    List.map_congr_left (fun e _ => (stampAll_preserve _ e).1)
  rw [h1, reclaim_ids]

theorem reclaim_mem (now : Nat) (s : Store) (e : Email) (he : e ∈ s.emails) :
    ∃ e1 ∈ (reclaimDeferrals now s).emails, e1.id = e.id ∧
      e1.batch_id = e.batch_id ∧ e1.status = e.status := by
  refine ⟨_, List.mem_map_of_mem _ he, ?_, ?_, ?_⟩ <;>
    (dsimp only []; split <;> rfl)

/-- A message already carrying a batch stamp is never selected or dispatched
by a scheduler tick, and comes out of the tick with its stamp and status
intact. -/
theorem tick_never_redispatches (s : Store) (now : Nat) (e : Email) (b : String)
    (hnd : (s.emails.map (fun x => x.id)).Nodup)
    (he : e ∈ s.emails) (hb : e.batch_id = some b) :
    e.id ∉ dispatchedIds (scheduler_dispatcher s now).2 ∧
    ∃ e2 ∈ (scheduler_dispatcher s now).1.emails, e2.id = e.id ∧
      e2.batch_id = some b ∧ e2.status = e.status := by
  have hfst : (scheduler_dispatcher s now).1 =
      runPlan (reclaimDeferrals now s)
        (planBatches (reclaimDeferrals now s)
          (selectEligible now (reclaimDeferrals now s)) now) := rfl
  have hsnd : (scheduler_dispatcher s now).2 =
      planBatches (reclaimDeferrals now s)
        (selectEligible now (reclaimDeferrals now s)) now := rfl
  have hnd1 : ((reclaimDeferrals now s).emails.map (fun x => x.id)).Nodup := by
    rw [reclaim_ids]; exact hnd
  rcases reclaim_mem now s e he with ⟨e1, he1, hid1, hb1, hst1⟩
  have hb1b : e1.batch_id = some b := by rw [hb1, hb]
  have hnotdisp : e.id ∉ dispatchedIds (scheduler_dispatcher s now).2 := by
    rw [hsnd]
    intro hmem
    have hperm := dispatchedIds_perm (reclaimDeferrals now s)
      (selectEligible now (reclaimDeferrals now s)) now
    have howned : e.id ∈ ownedIds (reclaimDeferrals now s)
        (selectEligible now (reclaimDeferrals now s)) := hperm.subset hmem
    rcases List.mem_map.mp howned with ⟨e3, he3f, hid3⟩
    have he3sel : e3 ∈ selectEligible now (reclaimDeferrals now s) :=
      List.mem_of_mem_filter he3f
    have hnone : e3.batch_id = none :=
      selectEligible_batch_none now (reclaimDeferrals now s) e3 he3sel
    have he3mem : e3 ∈ (reclaimDeferrals now s).emails :=
      (selectEligible_sublist now _).subset he3sel
    have heq : e3 = e1 :=
      List.inj_on_of_nodup_map hnd1 he3mem he1 (by rw [hid3, hid1])
    rw [heq, hb1b] at hnone
    exact Option.noConfusion hnone
  refine ⟨hnotdisp, ?_⟩
  rw [hfst, runPlan_emails]
  refine ⟨stampAll _ e1, List.mem_map_of_mem _ he1, ?_⟩
  have hstamp : stampAll (planBatches (reclaimDeferrals now s)
      (selectEligible now (reclaimDeferrals now s)) now) e1 = e1 := by
    apply stampAll_not_mem
    rw [hid1]
    rw [hsnd] at hnotdisp
    exact hnotdisp
  rw [hstamp]
  exact ⟨hid1, hb1b, hst1⟩

/-! ## Lemmas: the worker never touches claims -/

theorem applyProcessed_pairs (s : Store) (ps : List Email) :
    (applyProcessed s ps).emails.map (fun e => (e.id, e.batch_id)) =
      s.emails.map (fun e => (e.id, e.batch_id)) := by
  simp only [applyProcessed, List.map_map]
  refine List.map_congr_left (fun e _ => ?_)
  simp only [Function.comp_apply]
  cases h : ps.find? (fun p => p.id == e.id) <;> simp [h]

theorem send_batch_task_pairs (s : Store) (ids : List Nat) (env : Env)
    (ok : Bool) :
    (taskStore (send_batch_task s ids env ok)).emails.map
        (fun e => (e.id, e.batch_id)) =
      s.emails.map (fun e => (e.id, e.batch_id)) := by
  simp only [send_batch_task]
  split
  · rfl
  · split
    · rfl
    · split
      · split
        · simp only [taskStore, List.map_map]
          exact List.map_congr_left (fun e _ => by
            simp only [Function.comp_apply]
            split <;> rfl)
        · rfl
      · split
        · rfl
        · split
          · exact applyProcessed_pairs s _
          · rfl

theorem worker_preserves_pairs : ∀ (budget : Nat) (s : Store) (ids : List Nat)
    (env : Env) (ok : Bool),
    (outStore (send_batch_with_retries budget s ids env ok)).emails.map
        (fun e => (e.id, e.batch_id)) =
      s.emails.map (fun e => (e.id, e.batch_id)) := by
  intro budget
  induction budget with
  | zero =>
    intro s ids env ok
    have hpairs := send_batch_task_pairs s ids env ok
    rw [send_batch_with_retries]
    rcases htask : send_batch_task s ids env ok with ⟨s2, r, env2⟩ | ⟨s2, env2⟩ <;>
      rw [htask] at hpairs
    · cases r <;> simpa [taskStore, outStore] using hpairs
    · simpa [taskStore, outStore] using hpairs
  | succ bgt ih =>
    intro s ids env ok
    have hpairs := send_batch_task_pairs s ids env ok
    rw [send_batch_with_retries]
    rcases htask : send_batch_task s ids env ok with ⟨s2, r, env2⟩ | ⟨s2, env2⟩ <;>
      rw [htask] at hpairs
    · cases r with
      | retryRequested =>
        simp only [taskStore] at hpairs
        rw [show (match (TaskOut.finished s2 TaskResult.retryRequested env2 : TaskOut) with
          | TaskOut.finished s3 TaskResult.retryRequested env3 =>
            match bgt + 1 with
            | 0 => WorkerOutcome.maxRetriesExceeded s3 env3
            | b + 1 => send_batch_with_retries b s3 ids env3 ok
          | TaskOut.finished s3 r env3 => WorkerOutcome.finished s3 r env3
          | TaskOut.commitError s3 env3 => WorkerOutcome.commitError s3 env3) =
            send_batch_with_retries bgt s2 ids env2 ok from rfl]
        rw [ih s2 ids env2 ok, hpairs]
      | noEmails => simpa [taskStore, outStore] using hpairs
      | invalidBatch => simpa [taskStore, outStore] using hpairs
      | missingSettings => simpa [taskStore, outStore] using hpairs
      | done a bC c => simpa [taskStore, outStore] using hpairs
    · simpa [taskStore, outStore] using hpairs

/-- Claim C1, amended: at-most-once dispatch holds for **sequential** ticks —
whenever a tick runs against the store left by a previous tick, a message id
dispatched by the first tick is never dispatched by the second, because the
first tick stamped it and the selection excludes stamped messages.  (For
overlapping ticks that both query before either stamps, the unconditional
stamping update allows the same id to be stamped with two different batch ids
and handed to two workers, as the counterexample shows.) -/
theorem c1_sequential_ticks_at_most_once (s : Store) (now1 now2 i : Nat)
    (hnd : (s.emails.map (fun x => x.id)).Nodup)
    (hdisp : i ∈ dispatchedIds (scheduler_dispatcher s now1).2) :
    i ∉ dispatchedIds
      (scheduler_dispatcher (scheduler_dispatcher s now1).1 now2).2 := by
  have hsnd : (scheduler_dispatcher s now1).2 =
      planBatches (reclaimDeferrals now1 s)
        (selectEligible now1 (reclaimDeferrals now1 s)) now1 := rfl
  have hfst : (scheduler_dispatcher s now1).1 =
      runPlan (reclaimDeferrals now1 s)
        (planBatches (reclaimDeferrals now1 s)
          (selectEligible now1 (reclaimDeferrals now1 s)) now1) := rfl
  have hnd2 : ((scheduler_dispatcher s now1).1.emails.map (fun x => x.id)).Nodup := by
    rw [tick_ids]; exact hnd
  -- the email dispatched by tick 1 carries a stamp in tick 1's output store
  rw [hsnd] at hdisp
  have hperm := dispatchedIds_perm (reclaimDeferrals now1 s)
    (selectEligible now1 (reclaimDeferrals now1 s)) now1
  have howned : i ∈ ownedIds (reclaimDeferrals now1 s)
      (selectEligible now1 (reclaimDeferrals now1 s)) := hperm.subset hdisp
  rcases List.mem_map.mp howned with ⟨e3, he3f, hid3⟩
  have he3mem : e3 ∈ (reclaimDeferrals now1 s).emails :=
    (selectEligible_sublist now1 _).subset (List.mem_of_mem_filter he3f)
  have hstamped : ∃ bid, (stampAll (planBatches (reclaimDeferrals now1 s)
      (selectEligible now1 (reclaimDeferrals now1 s)) now1) e3).batch_id =
        some bid := by
    apply stampAll_some_of_mem
    rw [hid3]
    exact hdisp
  rcases hstamped with ⟨bid, hbid⟩
  have hmem2 : stampAll (planBatches (reclaimDeferrals now1 s)
      (selectEligible now1 (reclaimDeferrals now1 s)) now1) e3 ∈
      (scheduler_dispatcher s now1).1.emails := by
    rw [hfst, runPlan_emails]
    exact List.mem_map_of_mem _ he3mem
  have h2 := (tick_never_redispatches (scheduler_dispatcher s now1).1 now2 _ bid
    hnd2 hmem2 hbid).1
  rw [(stampAll_preserve _ e3).1, hid3] at h2
  exact h2

/-- Claim C1, witness: the sequential-ticks conclusion at a concrete store. -/
theorem c1_sequential_ticks_at_most_once_witness :
    (storeOwned.emails.map (fun x => x.id)).Nodup ∧
    1 ∈ dispatchedIds (scheduler_dispatcher storeOwned 0).2 ∧
    1 ∉ dispatchedIds
      (scheduler_dispatcher (scheduler_dispatcher storeOwned 0).1 1).2 := by
  exact ⟨by decide, by decide,
    c1_sequential_ticks_at_most_once storeOwned 0 1 1 (by decide) (by decide)⟩

/-! ## Claim C10 — claimed messages are never reselected -/

/-- Claim C10: once a message's `batch_id` is non-null, no later scheduler
tick ever selects or dispatches it again — whatever mix of ticks and worker
runs follows, and whatever the workers' scripted outcomes are — and nothing
in the pipeline ever clears the stamp: there is no reclamation of
claimed-but-unsent messages, so a worker exit path that leaves a stamped
message `pending` leaves it permanently undispatched. -/
theorem c10_claimed_never_reselected (s : Store) (e : Email) (b : String)
    (hnd : (s.emails.map (fun x => x.id)).Nodup)
    (he : e ∈ s.emails) (hb : e.batch_id = some b) :
    ∀ ops : List Op, e.id ∉ dispatchedIds (runOps s ops).2 ∧
      ∃ e2 ∈ (runOps s ops).1.emails, e2.id = e.id ∧ e2.batch_id = some b := by
  intro ops
  induction ops generalizing s e with
  | nil =>
    refine ⟨by simp [runOps, dispatchedIds], e, ?_, rfl, hb⟩
    show e ∈ (runOps s []).1.emails
    simp [runOps]
    exact he
  | cons op rest ih =>
    have hrun : runOps s (op :: rest) =
        ((runOps (applyOp s op).1 rest).1,
          (applyOp s op).2 ++ (runOps (applyOp s op).1 rest).2) := rfl
    cases op with
    | tick now =>
      have happ : applyOp s (Op.tick now) = scheduler_dispatcher s now := rfl
      rcases tick_never_redispatches s now e b hnd he hb with
        ⟨hnot1, e2, he2, hid2, hb2, _⟩
      have hnd2 : ((scheduler_dispatcher s now).1.emails.map
          (fun x => x.id)).Nodup := by
        rw [tick_ids]; exact hnd
      rcases ih (scheduler_dispatcher s now).1 e2 hnd2 he2 hb2 with
        ⟨hnotR, e3, he3, hid3, hb3⟩
      rw [hid2] at hnotR hid3
      constructor
      · rw [hrun, happ, dispatchedIds_append]
        intro hmem
        rcases List.mem_append.mp hmem with h | h
        · exact hnot1 h
        · exact hnotR h
      · refine ⟨e3, ?_, hid3, hb3⟩
        rw [hrun, happ]
        exact he3
    | worker ids2 env ok =>
      have happ : applyOp s (Op.worker ids2 env ok) =
          (outStore (send_batch_with_retries max_retries s ids2 env ok), []) := rfl
      have hpairs := worker_preserves_pairs max_retries s ids2 env ok
      have hpairmem : (e.id, some b) ∈
          (outStore (send_batch_with_retries max_retries s ids2 env ok)).emails.map
            (fun x => (x.id, x.batch_id)) := by
        rw [hpairs]
        exact List.mem_map.mpr ⟨e, he, by rw [hb]⟩
      rcases List.mem_map.mp hpairmem with ⟨e2, he2, hpe2⟩
      have hid2 : e2.id = e.id := congrArg Prod.fst hpe2
      have hb2 : e2.batch_id = some b := congrArg Prod.snd hpe2
      have hnd2 : ((outStore (send_batch_with_retries max_retries s ids2 env
          ok)).emails.map (fun x => x.id)).Nodup := by
        have hids := congrArg (List.map Prod.fst) hpairs
        simp only [List.map_map] at hids
        have hfun : ∀ l : List Email,
            l.map (Prod.fst ∘ fun x : Email => (x.id, x.batch_id)) =
              l.map (fun x => x.id) :=
          fun l => List.map_congr_left (fun x _ => rfl)
        rw [hfun, hfun] at hids
        rw [hids]
        exact hnd
      rcases ih _ e2 hnd2 he2 hb2 with ⟨hnotR, e3, he3, hid3, hb3⟩
      rw [hid2] at hnotR hid3
      constructor
      · rw [hrun, happ, dispatchedIds_append]
        intro hmem
        rcases List.mem_append.mp hmem with h | h
        · simp [dispatchedIds] at h
        · exact hnotR h
      · refine ⟨e3, ?_, hid3, hb3⟩
        rw [hrun, happ]
        exact he3

/-- Claim C10, witness: a stamped pending message survives two further ticks
unstamped-unchanged and undispatched. -/
theorem c10_claimed_never_reselected_witness :
    (storeConnFail.emails.map (fun x => x.id)).Nodup ∧
    emailClaimed ∈ storeConnFail.emails ∧
    emailClaimed.batch_id = some "b1" ∧
    (1 ∉ dispatchedIds (runOps storeConnFail opsWit).2 ∧
      ∃ e2 ∈ (runOps storeConnFail opsWit).1.emails, e2.id = 1 ∧
        e2.batch_id = some "b1") := by
  exact ⟨by decide, by decide, by decide,
    c10_claimed_never_reselected storeConnFail emailClaimed "b1" (by decide)
      (by decide) (by decide) opsWit⟩

/-- The rate-limit detector on representative relay error texts. -/
theorem isRateLimitErr_spot_checks :
    isRateLimitErr "451 slow down" = true ∧
    isRateLimitErr "QUOTA exceeded" = true ∧
    isRateLimitErr "Connection reset" = false ∧
    unquote "http%3A%2F%2Fx.com" = "http://x.com" := by
  refine ⟨by decide, by decide, by decide, by decide⟩
